import Mathlib

/-!
Shallow embedding of the analytics/reporting core of the VendorConnect
repository (src/database.py) together with proofs about the properties of
its aggregation functions.

Conventions:
* Python `datetime.date` values are embedded as `Date` (year/month/day
  triples); `datetime.datetime` as `DateTime` (a date plus hour/minute).
  Python can only construct calendar-valid datetimes, so universally
  quantified statements over dates carry a `ValidDate` hypothesis.
* Python `float` currency amounts are embedded as exact rationals (ℚ).
* Python dicts (which preserve insertion order) are embedded as
  association lists with insert-or-replace (`setKey`), update-if-present
  (`updateIn`) and get-or-insert-then-update (`upsert`) operations.
* `sorted(xs, key=k, reverse=True)` / `xs.sort(key=k, reverse=True)`
  (Timsort, stable) are embedded as `List.insertionSort` with the
  relation `fun x y => k y ≤ k x`, which is the unique stable
  descending-by-key sort.
-/

namespace VendorConnect

/-! ### Calendar arithmetic (embedding of Python `datetime` / `timedelta`) -/

/-- Gregorian leap-year rule, as used by Python `datetime`. -/
def isLeap (y : Nat) : Bool := y % 4 == 0 && (y % 100 != 0 || y % 400 == 0)

/-- Number of days in month `m` of year `y`. -/
def daysInMonth (y m : Nat) : Nat :=
  if m = 2 then (if isLeap y then 29 else 28)
  else if m = 4 ∨ m = 6 ∨ m = 9 ∨ m = 11 then 30
  else 31

/-- A calendar date (year, month, day). -/
structure Date where
  year : Nat
  month : Nat
  day : Nat
deriving DecidableEq, Repr

/-- The dates representable by Python `datetime.date`. -/
def ValidDate (d : Date) : Prop :=
  1 ≤ d.year ∧ 1 ≤ d.month ∧ d.month ≤ 12 ∧ 1 ≤ d.day ∧ d.day ≤ daysInMonth d.year d.month

instance : DecidablePred ValidDate := fun d => by
  unfold ValidDate; infer_instance

/-- The previous calendar day (embedding of `date - timedelta(days=1)`). -/
def prevDay (d : Date) : Date :=
  if 1 < d.day then ⟨d.year, d.month, d.day - 1⟩
  else if 1 < d.month then ⟨d.year, d.month - 1, daysInMonth d.year (d.month - 1)⟩
  else ⟨d.year - 1, 12, 31⟩

/-- `d - timedelta(days=n)`. -/
def subDays (d : Date) : Nat → Date
  | 0 => d
  | n + 1 => prevDay (subDays d n)

/-- Total days in months `1..k` of year `y`. -/
def monthsSum (y : Nat) : Nat → Nat
  | 0 => 0
  | k + 1 => monthsSum y k + daysInMonth y (k + 1)

/-- Days of year `y` that precede month `m` (Python `tm_yday` helper). -/
def daysBeforeMonth (y m : Nat) : Nat := monthsSum y (m - 1)

/-- Days that precede year `y` counting from 0001-01-01 (proleptic Gregorian). -/
def daysBeforeYear (y : Nat) : Nat :=
  365 * (y - 1) + (y - 1) / 4 - (y - 1) / 100 + (y - 1) / 400

/-- Rata-die style day number: 0 at 0001-01-01. -/
def toDayNumber (d : Date) : Nat :=
  daysBeforeYear d.year + daysBeforeMonth d.year d.month + (d.day - 1)

/-! ### Week numbers (Python strftime `%U`: week of year, Sunday as first day) -/

/-- 0-based day of the year (C `tm_yday`). -/
def ydayZ (d : Date) : Nat := toDayNumber d - daysBeforeYear d.year

/-- Day of week with Sunday = 0 (C `tm_wday`); 0001-01-01 is a Monday. -/
def wdaySun (d : Date) : Nat := (toDayNumber d + 1) % 7

/-- Python `strftime("%U")`: `(tm_yday + 7 - tm_wday) / 7`. -/
def uWeek (d : Date) : Nat := (ydayZ d + 7 - wdaySun d) / 7

/-- The pair rendered by `strftime("%Y-W%U")`. -/
def weekKey (d : Date) : Nat × Nat := (d.year, uWeek d)

/-- Strict lexicographic order on pairs, used to separate period keys. -/
def lexLt (a b : Nat × Nat) : Prop := a.1 < b.1 ∨ (a.1 = b.1 ∧ a.2 < b.2)

/-! ### DateTime (embedding of Python `datetime.datetime`) -/

/-- A timestamp: a calendar date plus time of day. -/
structure DateTime where
  date : Date
  hour : Nat
  minute : Nat
deriving DecidableEq, Repr

/-- The timestamps representable by Python `datetime`. -/
def ValidDateTime (t : DateTime) : Prop :=
  ValidDate t.date ∧ t.hour ≤ 23 ∧ t.minute ≤ 59

/-- Minute serial number; Python datetime comparison is equivalent to
comparing these on the valid domain. -/
def dtMinutes (t : DateTime) : Nat :=
  toDayNumber t.date * 1440 + t.hour * 60 + t.minute

/-- `a <= b` on datetimes. -/
def dtLe (a b : DateTime) : Bool := dtMinutes a ≤ dtMinutes b

/-- `a < b` on datetimes. -/
def dtLt (a b : DateTime) : Bool := dtMinutes a < dtMinutes b

/-- `t.replace(day=1)` (keeps the time of day, as Python does). -/
def dtReplaceDay1 (t : DateTime) : DateTime :=
  ⟨⟨t.date.year, t.date.month, 1⟩, t.hour, t.minute⟩

/-- `t - timedelta(days=n)` (keeps the time of day). -/
def dtSubDays (t : DateTime) (n : Nat) : DateTime :=
  ⟨subDays t.date n, t.hour, t.minute⟩

/-! ### Ordered dictionaries (Python dicts preserve insertion order) -/

/-- The keys of an association list, in order. -/
def alKeys {κ β : Type*} (l : List (κ × β)) : List κ := l.map Prod.fst

/-- Dictionary lookup `d.get(k)` / `d[k]`. -/
def alGet? {κ β : Type*} [DecidableEq κ] (k : κ) : List (κ × β) → Option β
  | [] => none
  | p :: l => if p.1 = k then some p.2 else alGet? k l

/-- `d[k] = v`: replace the value in place if the key exists, else append. -/
def setKey {κ β : Type*} [DecidableEq κ] (k : κ) (v : β) : List (κ × β) → List (κ × β)
  | [] => [(k, v)]
  | p :: l => if p.1 = k then (p.1, v) :: l else p :: setKey k v l

/-- `if k in d: d[k] = f(d[k])` (no effect when the key is absent). -/
def updateIn {κ β : Type*} [DecidableEq κ] (k : κ) (f : β → β) : List (κ × β) → List (κ × β)
  | [] => []
  | p :: l => if p.1 = k then (p.1, f p.2) :: l else p :: updateIn k f l

/-- `if k not in d: d[k] = z` followed by `d[k] = f(d[k])`. -/
def upsert {κ β : Type*} [DecidableEq κ] (k : κ) (z : β) (f : β → β) :
    List (κ × β) → List (κ × β)
  | [] => [(k, f z)]
  | p :: l => if p.1 = k then (p.1, f p.2) :: l else p :: upsert k z f l

/-- Grouping fold: `for t in l: if kf(t) not in d: d[kf(t)] = z; d[kf(t)] = f(t, d[kf(t)])`. -/
def groupFold {τ κ β : Type*} [DecidableEq κ] (kf : τ → κ) (z : τ → β) (f : τ → β → β)
    (l : List τ) : List (κ × β) :=
  l.foldl (fun d t => upsert (kf t) (z t) (f t) d) []

/-! ### Stable descending sort (Python `sorted(xs, key=k, reverse=True)`)

Python sorts are stable; with `reverse=True` elements are ordered by
descending key and equal-key elements keep their original relative order.
This is exactly insertion sort with the relation `key y ≤ key x`. -/

/-- `sorted(l, key=key, reverse=True)`. -/
def pySortDesc {α γ : Type*} [LinearOrder γ] (key : α → γ) (l : List α) : List α :=
  List.insertionSort (fun x y => key y ≤ key x) l

/-! ### Data records (raw rows as read from the Record Source) -/

/-- An order row. `vendor_id`/`buyer_id` are `order.get(...)` results
(possibly absent); amounts are Python floats, embedded as exact rationals. -/
structure OrderRec where
  vendor_id : Option Int
  buyer_id : Option Int
  total_amount : ℚ
  status : String
  order_date : Option DateTime
deriving DecidableEq

/-- Python truthiness of an id value: `None` and `0` are falsy. -/
def truthyId : Option Int → Bool
  | none => false
  | some v => v != 0

/-- A stock row (fields used by the inventory analytics). -/
structure StockRec where
  current_stock : Int
  reorder_level : Int
  unit_cost : ℚ
  vendor_id : Option Int
deriving DecidableEq

/-- A stock-transaction row. -/
structure TransRec where
  quantity : Int
  transaction_type : String
  created_at : DateTime
deriving DecidableEq

/-- The joined `menu_items(*)` sub-row of an order item. -/
structure MenuRef where
  id : Int
  name : String
deriving DecidableEq

/-- An order-item row with its joined menu item (possibly missing). -/
structure OrderItemRec where
  menu_items : Option MenuRef
  quantity : Int
  total_price : ℚ
deriving DecidableEq

/-- A menu-item row (field used by the vendor analytics). -/
structure MenuItemRec where
  is_available : Bool
deriving DecidableEq

/-- A buyer row (field used by the customer analytics). -/
structure BuyerRec where
  created_at : Option DateTime
deriving DecidableEq

/-- `result.data if result.data else []`. -/
def rows {ρ : Type*} (d : Option (List ρ)) : List ρ := d.getD []

/-! ### get_sales_analytics (src/database.py) -/

structure SalesAnalytics where
  total_sales : ℚ
  total_orders : Nat
  this_month_sales : ℚ
  this_month_orders : Nat
  average_order_value : ℚ
  top_vendors : List (Option Int × ℚ)
  status_distribution : List (String × Nat)
deriving DecidableEq

/-- Orders whose `order_date` is present and `>= now.replace(day=1)`. -/
def this_month_orders_of (now : DateTime) (orders : List OrderRec) : List OrderRec :=
  orders.filter (fun o => match o.order_date with
    | some t => dtLe (dtReplaceDay1 now) t
    | none => false)

/-- `vendor_sales[vendor_id] = vendor_sales.get(vendor_id, 0) + amount`,
guarded by `if vendor_id:` (so missing/null/zero ids are skipped). -/
def vendor_sales (orders : List OrderRec) : List (Option Int × ℚ) :=
  orders.foldl (fun d o =>
    if truthyId o.vendor_id then upsert o.vendor_id 0 (fun s => s + o.total_amount) d
    else d) []

/-- `status_counts[status] = status_counts.get(status, 0) + 1`. -/
def status_counts (orders : List OrderRec) : List (String × Nat) :=
  orders.foldl (fun d o => upsert o.status 0 (fun c => c + 1) d) []

def get_sales_analytics (now : DateTime) (orders : List OrderRec) : SalesAnalytics :=
  let total_sales := (orders.map (fun o => o.total_amount)).sum
  let total_orders := orders.length
  let tmo := this_month_orders_of now orders
  { total_sales := total_sales
    total_orders := total_orders
    this_month_sales := (tmo.map (fun o => o.total_amount)).sum
    this_month_orders := tmo.length
    average_order_value := if total_orders > 0 then total_sales / (total_orders : ℚ) else 0
    top_vendors := (pySortDesc (fun p => p.2) (vendor_sales orders)).take 5
    status_distribution := status_counts orders }

/-! ### get_inventory_analytics (src/database.py) -/

structure InventoryAnalytics where
  total_stock_items : Nat
  total_stock_value : ℚ
  low_stock_count : Nat
  critical_stock_count : Nat
  stock_efficiency : ℚ
  vendor_stock_distribution : List (Option Int × (Nat × ℚ))
deriving DecidableEq

/-- `[item for item in stock_items if current_stock <= reorder_level]`. -/
def low_stock_items (stock_items : List StockRec) : List StockRec :=
  stock_items.filter (fun s => s.current_stock ≤ s.reorder_level)

/-- `[item for item in low_stock_items if current_stock == 0]`. -/
def critical_stock_items (stock_items : List StockRec) : List StockRec :=
  (low_stock_items stock_items).filter (fun s => s.current_stock = 0)

/-- Per-vendor item counts and values (`if vendor_id:` guard as in source). -/
def vendor_stock (stock_items : List StockRec) : List (Option Int × (Nat × ℚ)) :=
  stock_items.foldl (fun d s =>
    if truthyId s.vendor_id then
      upsert s.vendor_id (0, 0)
        (fun p => (p.1 + 1, p.2 + (s.current_stock : ℚ) * s.unit_cost)) d
    else d) []

def get_inventory_analytics (stock_items : List StockRec) : InventoryAnalytics :=
  let total := stock_items.length
  let low := low_stock_items stock_items
  { total_stock_items := total
    total_stock_value := (stock_items.map (fun s => (s.current_stock : ℚ) * s.unit_cost)).sum
    low_stock_count := low.length
    critical_stock_count := (critical_stock_items stock_items).length
    stock_efficiency :=
      if total > 0 then ((total : ℚ) - (low.length : ℚ)) / (total : ℚ) * 100 else 100
    vendor_stock_distribution := vendor_stock stock_items }

/-! ### get_customer_analytics (src/database.py) -/

structure CustomerAnalytics where
  total_customers : Nat
  active_customers : Nat
  new_customers_this_month : Nat
  avg_orders_per_customer : ℚ
  retention_rate : ℚ
  repeat_customers : Nat
deriving DecidableEq

/-- `customer_orders[buyer_id] = customer_orders.get(buyer_id, 0) + 1`,
guarded by `if buyer_id:`. -/
def customer_orders (orders : List OrderRec) : List (Option Int × Nat) :=
  orders.foldl (fun d o =>
    if truthyId o.buyer_id then upsert o.buyer_id 0 (fun c => c + 1) d else d) []

def get_customer_analytics (now : DateTime) (buyers : List BuyerRec)
    (orders : List OrderRec) : CustomerAnalytics :=
  let co := customer_orders orders
  let active := co.length
  let counts := co.map (fun p => p.2)
  let repeatCustomers := (counts.filter (fun c => c > 1)).length
  { total_customers := buyers.length
    active_customers := active
    new_customers_this_month := (buyers.filter (fun b => match b.created_at with
      | some t => dtLe (dtReplaceDay1 now) t
      | none => false)).length
    avg_orders_per_customer := if active > 0 then (counts.sum : ℚ) / (active : ℚ) else 0
    retention_rate := if active > 0 then (repeatCustomers : ℚ) / (active : ℚ) * 100 else 0
    repeat_customers := repeatCustomers }

/-! ### get_financial_summary (src/database.py) -/

structure FinancialSummary where
  total_revenue : ℚ
  monthly_revenue : List ((Nat × Nat) × ℚ)
  growth_rate : ℚ
  avg_transaction_value : ℚ
  total_transactions : Nat
deriving DecidableEq

/-- The pair rendered by `strftime("%B %Y")` / `strftime("%Y-%m")`
(full or numeric month name plus year; injective on valid dates). -/
def monthKeyOf (d : Date) : Nat × Nat := (d.year, d.month)

/-- Seed `monthly_revenue[month_key] = 0` for
`month_date = now.replace(day=1) - timedelta(days=i*30)`, `i = 0..11`. -/
def financial_month_seed (now : DateTime) : List ((Nat × Nat) × ℚ) :=
  (List.range 12).foldl (fun d i =>
    setKey (monthKeyOf (subDays (dtReplaceDay1 now).date (i * 30))) 0 d) []

/-- Fold orders into the seeded months
(`if month_key in monthly_revenue: ... += amount`). -/
def financial_monthly_revenue (now : DateTime) (orders : List OrderRec) :
    List ((Nat × Nat) × ℚ) :=
  orders.foldl (fun d o => match o.order_date with
    | none => d
    | some t => updateIn (monthKeyOf t.date) (fun r => r + o.total_amount) d)
    (financial_month_seed now)

def get_financial_summary (now : DateTime) (orders : List OrderRec) : FinancialSummary :=
  let monthly := financial_monthly_revenue now orders
  let revenue_values := monthly.map (fun p => p.2)
  let growth_rate : ℚ :=
    match revenue_values with
    | current :: previous :: _ =>
        if previous > 0 then (current - previous) / previous * 100 else 0
    | _ => 0
  let total_revenue := (orders.map (fun o => o.total_amount)).sum
  { total_revenue := total_revenue
    monthly_revenue := monthly
    growth_rate := growth_rate
    avg_transaction_value :=
      if orders.length > 0 then total_revenue / (orders.length : ℚ) else 0
    total_transactions := orders.length }

/-! ### get_vendor_analytics_data (src/database.py) -/

structure VendorAnalytics where
  total_revenue : ℚ
  this_month_revenue : ℚ
  revenue_growth : ℚ
  average_order_value : ℚ
  total_orders : Nat
  this_month_orders : Nat
  orders_growth : ℚ
  total_customers : Nat
  new_customers_this_month : Nat
  customer_growth : ℚ
  menu_items_count : Nat
  active_menu_items : Nat
  stock_items_count : Nat
deriving DecidableEq

/-- `previous_month = (current_month - timedelta(days=1)).replace(day=1)`. -/
def previous_month_start (now : DateTime) : DateTime :=
  dtReplaceDay1 (dtSubDays (dtReplaceDay1 now) 1)

/-- Orders with `previous_month <= order_date < current_month`. -/
def previous_month_orders_of (now : DateTime) (orders : List OrderRec) : List OrderRec :=
  orders.filter (fun o => match o.order_date with
    | some t => dtLe (previous_month_start now) t && dtLt t (dtReplaceDay1 now)
    | none => false)

/-- `len(set(order.get("buyer_id") for order in orders if order.get("buyer_id")))`. -/
def unique_customers (orders : List OrderRec) : Nat :=
  ((orders.filter (fun o => truthyId o.buyer_id)).map (fun o => o.buyer_id)).toFinset.card

def get_vendor_analytics_data (now : DateTime) (orders : List OrderRec)
    (menu_items : List MenuItemRec) (stock_items : List StockRec) : VendorAnalytics :=
  let total_revenue := (orders.map (fun o => o.total_amount)).sum
  let total_orders := orders.length
  let tmo := this_month_orders_of now orders
  let this_month_revenue := (tmo.map (fun o => o.total_amount)).sum
  let pmo := previous_month_orders_of now orders
  let previous_month_revenue := (pmo.map (fun o => o.total_amount)).sum
  { total_revenue := total_revenue
    this_month_revenue := this_month_revenue
    revenue_growth :=
      if previous_month_revenue > 0 then
        ((this_month_revenue - previous_month_revenue) / previous_month_revenue) * 100
      else 0
    average_order_value :=
      if total_orders > 0 then total_revenue / (total_orders : ℚ) else 0
    total_orders := total_orders
    this_month_orders := tmo.length
    orders_growth :=
      if pmo.length > 0 then
        ((tmo.length : ℚ) - (pmo.length : ℚ)) / (pmo.length : ℚ) * 100
      else 0
    total_customers := unique_customers orders
    new_customers_this_month := unique_customers tmo
    customer_growth := 0
    menu_items_count := menu_items.length
    active_menu_items := (menu_items.filter (fun m => m.is_available)).length
    stock_items_count := stock_items.length }

/-! ### get_vendor_revenue_trend (src/database.py) -/

inductive Period where
  | daily
  | weekly
  | monthly
deriving DecidableEq

/-- A trend bucket value: `{"date": label, "revenue": 0, "orders": 0}`. -/
structure TrendBucket where
  date : String
  revenue : ℚ
  orders : Nat
deriving DecidableEq

/-- Two-digit zero padding, as in `%m`, `%d`, `%U`. -/
def pad2 (n : Nat) : String := if n < 10 then "0" ++ toString n else toString n

/-- `strftime("%m/%d")`. -/
def labelMD (d : Date) : String := pad2 d.month ++ "/" ++ pad2 d.day

/-- `strftime("%b")` month abbreviation (valid months are 1..12). -/
def monthAbbrev : Nat → String
  | 1 => "Jan" | 2 => "Feb" | 3 => "Mar" | 4 => "Apr" | 5 => "May" | 6 => "Jun"
  | 7 => "Jul" | 8 => "Aug" | 9 => "Sep" | 10 => "Oct" | 11 => "Nov" | 12 => "Dec"
  | _ => ""

/-- `strftime("%b %Y")`. -/
def labelBY (d : Date) : String := monthAbbrev d.month ++ " " ++ toString d.year

/-- Daily seed: keys `(now - timedelta(days=i)).strftime("%Y-%m-%d")` for
`i = 0..6` (embedded as the date itself), values zero with `%m/%d` label. -/
def daily_seed (now : DateTime) : List (Date × TrendBucket) :=
  (List.range 7).foldl (fun d i =>
    setKey (subDays now.date i) ⟨labelMD (subDays now.date i), 0, 0⟩ d) []

/-- Weekly seed: keys `(now - timedelta(weeks=i)).strftime("%Y-W%U")` for
`i = 0..7`, values zero with `Week %U` label. -/
def weekly_seed (now : DateTime) : List ((Nat × Nat) × TrendBucket) :=
  (List.range 8).foldl (fun d i =>
    setKey (weekKey (subDays now.date (7 * i)))
      ⟨"Week " ++ pad2 (uWeek (subDays now.date (7 * i))), 0, 0⟩ d) []

/-- Monthly seed: keys `(now.replace(day=1) - timedelta(days=i*30)).strftime("%Y-%m")`
for `i = 0..11`, values zero with `%b %Y` label. -/
def monthly_seed (now : DateTime) : List ((Nat × Nat) × TrendBucket) :=
  (List.range 12).foldl (fun d i =>
    setKey (monthKeyOf (subDays (dtReplaceDay1 now).date (i * 30)))
      ⟨labelBY (subDays (dtReplaceDay1 now).date (i * 30)), 0, 0⟩ d) []

/-- Fold orders into buckets: `if key in trend_data: revenue += amount; orders += 1`. -/
def trend_fold {κ : Type*} [DecidableEq κ] (keyOf : DateTime → κ)
    (buckets : List (κ × TrendBucket)) (orders : List OrderRec) :
    List (κ × TrendBucket) :=
  orders.foldl (fun d o => match o.order_date with
    | none => d
    | some t => updateIn (keyOf t)
        (fun b => ⟨b.date, b.revenue + o.total_amount, b.orders + 1⟩) d) buckets

def dailyKeyOf (t : DateTime) : Date := t.date

def weeklyKeyOf (t : DateTime) : Nat × Nat := weekKey t.date

def monthlyKeyOf (t : DateTime) : Nat × Nat := monthKeyOf t.date

/-- `result = list(trend_data.values()); result.reverse(); return result`. -/
def get_vendor_revenue_trend (now : DateTime) (orders : List OrderRec)
    (period : Period) : List TrendBucket :=
  match period with
  | .daily => ((trend_fold dailyKeyOf (daily_seed now) orders).map Prod.snd).reverse
  | .weekly => ((trend_fold weeklyKeyOf (weekly_seed now) orders).map Prod.snd).reverse
  | .monthly => ((trend_fold monthlyKeyOf (monthly_seed now) orders).map Prod.snd).reverse

/-! ### get_vendor_top_selling_items (src/database.py) -/

structure ItemStats where
  name : String
  orders : Nat
  total_quantity : Int
  total_revenue : ℚ
deriving DecidableEq

/-- Group order items by menu-item id (`if menu_item:` skips missing joins);
new ids are appended in discovery order, as Python dicts do. -/
def item_stats (order_items : List OrderItemRec) : List (Int × ItemStats) :=
  order_items.foldl (fun st it => match it.menu_items with
    | none => st
    | some m => upsert m.id ⟨m.name, 0, 0, 0⟩
        (fun s => ⟨s.name, s.orders + 1, s.total_quantity + it.quantity,
          s.total_revenue + it.total_price⟩) st) []

/-- `sorted(item_stats.values(), key=lambda x: x["total_revenue"], reverse=True)[:limit]`. -/
def get_vendor_top_selling_items (order_items : List OrderItemRec) (limit : Nat) :
    List ItemStats :=
  (pySortDesc (fun s => s.total_revenue) ((item_stats order_items).map Prod.snd)).take limit

/-! ### get_vendor_peak_hours (src/database.py) -/

structure HourStat where
  orders : Nat
  revenue : ℚ
deriving DecidableEq

structure PeakEntry where
  hour : Nat
  display_hour : String
  orders : Nat
  revenue : ℚ
deriving DecidableEq

/-- `for hour in range(24): hour_stats[hour] = {"orders": 0, "revenue": 0}`. -/
def hour_seed : List (Nat × HourStat) :=
  (List.range 24).foldl (fun d h => setKey h ⟨0, 0⟩ d) []

/-- Fold each dated order into its hour bucket. -/
def hour_stats (orders : List OrderRec) : List (Nat × HourStat) :=
  orders.foldl (fun d o => match o.order_date with
    | none => d
    | some t => updateIn t.hour
        (fun s => ⟨s.orders + 1, s.revenue + o.total_amount⟩) d) hour_seed

/-- `hour_12 = hour % 12 if hour % 12 != 0 else 12`;
`period = "AM" if hour < 12 else "PM"`; `f"{hour_12} {period}"`. -/
def display_hour (hour : Nat) : String :=
  (toString (if hour % 12 ≠ 0 then hour % 12 else 12)) ++ " " ++
    (if hour < 12 then "AM" else "PM")

/-- Surviving buckets (`orders > 0`), formatted, in hour order 0..23. -/
def peak_hours_list (orders : List OrderRec) : List PeakEntry :=
  ((hour_stats orders).filter (fun p => p.2.orders > 0)).map
    (fun p => ⟨p.1, display_hour p.1, p.2.orders, p.2.revenue⟩)

/-- `peak_hours.sort(key=lambda x: x["orders"], reverse=True); return peak_hours[:9]`. -/
def get_vendor_peak_hours (orders : List OrderRec) : List PeakEntry :=
  (pySortDesc (fun e => e.orders) (peak_hours_list orders)).take 9

/-! ### get_monthly_transaction_summary (src/database.py) -/

/-- A summary row; `month` embeds the `strftime("%B %Y")` label as the
(year, month) pair it denotes (strptime of the label recovers exactly it). -/
structure MonthlySummaryRow where
  month : Nat × Nat
  total_in : Int
  total_out : Int
  total_adjustments : Int
  net_change : Int
deriving DecidableEq

/-- One transaction folded into its month row. -/
def apply_tx (t : TransRec) (r : MonthlySummaryRow) : MonthlySummaryRow :=
  if t.transaction_type = "in" then
    { r with total_in := r.total_in + t.quantity, net_change := r.net_change + t.quantity }
  else if t.transaction_type = "out" then
    { r with total_out := r.total_out + t.quantity, net_change := r.net_change - t.quantity }
  else if t.transaction_type = "adjustment" then
    { r with total_adjustments := r.total_adjustments + |t.quantity| }
  else r

/-- Group transactions by month, zero-initialising each month on first sight. -/
def monthly_groups (txs : List TransRec) : List ((Nat × Nat) × MonthlySummaryRow) :=
  groupFold (fun t => monthKeyOf t.created_at.date)
    (fun t => ⟨monthKeyOf t.created_at.date, 0, 0, 0, 0⟩) apply_tx txs

/-- Full pipeline: keep the trailing 365 days, group by month, sort rows by
parsed month descending (most recent first), truncate to 12. -/
def get_monthly_transaction_summary (now : DateTime) (txs : List TransRec) :
    List MonthlySummaryRow :=
  let start_date := dtSubDays now 365
  let filtered := txs.filter (fun t => dtLe start_date t.created_at && dtLe t.created_at now)
  let monthly_list := (monthly_groups filtered).map Prod.snd
  (pySortDesc (fun r => toLex r.month) monthly_list).take 12

/-! ### get_vendor_business_insights (src/database.py) -/

/-- One advisory entry; each constructor corresponds to one `insights.append`
site and carries the values interpolated into its message. -/
inductive Insight where
  | growthPos (pct : ℚ)
  | growthWarn (pctAbs : ℚ)
  | peakHour (display : String) (orders : Nat)
  | bestseller (name : String) (revenue : ℚ)
  | menuOpt
deriving DecidableEq

/-- The `"type"` field of each appended insight dict. -/
def insight_type : Insight → String
  | .growthPos _ => "positive"
  | .growthWarn _ => "warning"
  | .peakHour _ _ => "info"
  | .bestseller _ _ => "positive"
  | .menuOpt => "neutral"

def get_vendor_business_insights (now : DateTime) (orders : List OrderRec)
    (order_items : List OrderItemRec) (menu_items : List MenuItemRec)
    (stock_items : List StockRec) : List Insight :=
  let analytics := get_vendor_analytics_data now orders menu_items stock_items
  let top_items := get_vendor_top_selling_items order_items 5
  let peak_hours := get_vendor_peak_hours orders
  let l1 : List Insight :=
    if analytics.revenue_growth > 10 then [.growthPos analytics.revenue_growth]
    else if analytics.revenue_growth < -5 then [.growthWarn |analytics.revenue_growth|]
    else []
  let l2 : List Insight :=
    match peak_hours with
    | [] => []
    | b :: _ => [.peakHour b.display_hour b.orders]
  let l3 : List Insight :=
    match top_items with
    | [] => []
    | b :: _ => [.bestseller b.name b.total_revenue]
  let l4 : List Insight :=
    if analytics.menu_items_count > 0 ∧
        (analytics.active_menu_items : ℚ) / (analytics.menu_items_count : ℚ) < 0.8 then
      [.menuOpt]
    else []
  (l1 ++ l2 ++ l3 ++ l4).take 4

/-! ### Entry points with their fetch outcomes (try/except wrappers)

Each public method wraps its body in `try ... except Exception: return <default>`
and reads each fetch as `result.data if result.data else []`. A fetch outcome
is embedded as `Except Unit (Option (List ρ))`: `.error` is a raised fetch
exception (caught by the wrapper), `.ok none` is a null/empty payload. -/

def get_sales_analytics_entry (now : DateTime)
    (fetch : Except Unit (Option (List OrderRec))) : Option SalesAnalytics :=
  match fetch with
  | .error _ => none
  | .ok d => some (get_sales_analytics now (rows d))

def get_inventory_analytics_entry
    (fetch : Except Unit (Option (List StockRec))) : Option InventoryAnalytics :=
  match fetch with
  | .error _ => none
  | .ok d => some (get_inventory_analytics (rows d))

def get_customer_analytics_entry (now : DateTime)
    (fetch : Except Unit (Option (List BuyerRec) × Option (List OrderRec))) :
    Option CustomerAnalytics :=
  match fetch with
  | .error _ => none
  | .ok (b, o) => some (get_customer_analytics now (rows b) (rows o))

def get_financial_summary_entry (now : DateTime)
    (fetch : Except Unit (Option (List OrderRec))) : Option FinancialSummary :=
  match fetch with
  | .error _ => none
  | .ok d => some (get_financial_summary now (rows d))

def get_vendor_analytics_data_entry (now : DateTime)
    (fetch : Except Unit (Option (List OrderRec) × Option (List MenuItemRec) ×
      Option (List StockRec))) : Option VendorAnalytics :=
  match fetch with
  | .error _ => none
  | .ok (o, m, s) => some (get_vendor_analytics_data now (rows o) (rows m) (rows s))

def get_vendor_revenue_trend_entry (now : DateTime)
    (fetch : Except Unit (Option (List OrderRec))) (period : Period) : List TrendBucket :=
  match fetch with
  | .error _ => []
  | .ok d => get_vendor_revenue_trend now (rows d) period

def get_vendor_top_selling_items_entry
    (fetch : Except Unit (Option (List OrderItemRec))) (limit : Nat) : List ItemStats :=
  match fetch with
  | .error _ => []
  | .ok d => get_vendor_top_selling_items (rows d) limit

def get_vendor_peak_hours_entry
    (fetch : Except Unit (Option (List OrderRec))) : List PeakEntry :=
  match fetch with
  | .error _ => []
  | .ok d => get_vendor_peak_hours (rows d)

def get_monthly_transaction_summary_entry (now : DateTime)
    (fetch : Except Unit (Option (List TransRec))) : List MonthlySummaryRow :=
  match fetch with
  | .error _ => []
  | .ok d => get_monthly_transaction_summary now (rows d)

def get_vendor_business_insights_entry (now : DateTime)
    (fetch : Except Unit (Option (List OrderRec) × Option (List OrderItemRec) ×
      Option (List MenuItemRec) × Option (List StockRec))) : List Insight :=
  match fetch with
  | .error _ => []
  | .ok (o, oi, m, s) =>
      get_vendor_business_insights now (rows o) (rows oi) (rows m) (rows s)


/-! ### Spec-side definitions used to compare against the code -/

/-- The three stock-health classes named by the spec. -/
inductive StockHealth where
  | critical
  | low
  | healthy
deriving DecidableEq

/-- Classifier written from the spec text (§4.2): critical when
`current_stock == 0`, low when `current_stock > 0 AND current_stock <=
reorder_level`, healthy otherwise. Used to compare the spec's
classification with the code's filters. -/
def classify_stock_spec (s : StockRec) : StockHealth :=
  if s.current_stock = 0 then .critical
  else if 0 < s.current_stock ∧ s.current_stock ≤ s.reorder_level then .low
  else .healthy

/-! ## Lemmas and claim theorems -/

theorem isLeap_iff (y : Nat) :
    isLeap y = true ↔ (y % 4 = 0 ∧ (y % 100 ≠ 0 ∨ y % 400 = 0)) := by
  simp [isLeap]

theorem daysInMonth_pos (y m : Nat) : 1 ≤ daysInMonth y m := by
  unfold daysInMonth
  split_ifs <;> omega

set_option maxHeartbeats 1000000 in
theorem leapVal (y : Nat) :
    (if isLeap y then 1 else 0) =
      if y % 4 = 0 then (if y % 100 = 0 then (if y % 400 = 0 then 1 else 0) else 1) else 0 := by
  by_cases h4 : y % 4 = 0 <;> by_cases h100 : y % 100 = 0 <;> by_cases h400 : y % 400 = 0 <;>
    simp [isLeap, h4, h100, h400]

set_option maxHeartbeats 1000000 in
theorem daysBeforeYear_succ (y : Nat) (hy : 1 ≤ y) :
    daysBeforeYear (y + 1) = daysBeforeYear y + 365 + (if isLeap y then 1 else 0) := by
  rw [leapVal]
  unfold daysBeforeYear
  split_ifs <;> omega

theorem monthsSum_11 (y : Nat) :
    monthsSum y 11 = 334 + (if isLeap y then 1 else 0) := by
  cases hl : isLeap y <;>
    simp [monthsSum, daysInMonth, hl]

theorem daysInMonth_12 (y : Nat) : daysInMonth y 12 = 31 := rfl

theorem validDate_prevDay {d : Date} (hv : ValidDate d) (hne : d ≠ ⟨1, 1, 1⟩) :
    ValidDate (prevDay d) := by
  obtain ⟨hy, hm1, hm2, hd1, hd2⟩ := hv
  unfold prevDay
  split_ifs with h1 h2
  · exact ⟨hy, hm1, hm2, by show 1 ≤ d.day - 1; omega,
      by show d.day - 1 ≤ daysInMonth d.year d.month; omega⟩
  · exact ⟨hy, by show 1 ≤ d.month - 1; omega, by show d.month - 1 ≤ 12; omega,
      daysInMonth_pos _ _, le_refl _⟩
  · have hyne : d.year ≠ 1 := by
      intro hcon
      have hdd : d.day = 1 := by omega
      have hmm : d.month = 1 := by omega
      exact hne (by cases d; simp_all)
    refine ⟨by show 1 ≤ d.year - 1; omega, by norm_num, by norm_num, by norm_num, ?_⟩
    show 31 ≤ daysInMonth (d.year - 1) 12
    rw [daysInMonth_12]

theorem toDayNumber_epoch : toDayNumber ⟨1, 1, 1⟩ = 0 := by
  simp [toDayNumber, daysBeforeYear, daysBeforeMonth, monthsSum]

theorem toDayNumber_prevDay {d : Date} (hv : ValidDate d) (hne : d ≠ ⟨1, 1, 1⟩) :
    toDayNumber (prevDay d) + 1 = toDayNumber d := by
  obtain ⟨hy, hm1, hm2, hd1, hd2⟩ := hv
  unfold prevDay
  split_ifs with h1 h2
  · show toDayNumber ⟨d.year, d.month, d.day - 1⟩ + 1 = toDayNumber d
    simp only [toDayNumber]
    omega
  · -- borrow from the previous month
    have hd : d.day = 1 := by omega
    obtain ⟨k, hk⟩ : ∃ k, d.month = k + 2 := ⟨d.month - 2, by omega⟩
    show toDayNumber ⟨d.year, d.month - 1, daysInMonth d.year (d.month - 1)⟩ + 1 = toDayNumber d
    have e1 : k + 2 - 1 = k + 1 := rfl
    have e2 : k + 1 - 1 = k := rfl
    simp only [toDayNumber, daysBeforeMonth, hk, hd, e1, e2]
    have hstep : monthsSum d.year (k + 1) = monthsSum d.year k + daysInMonth d.year (k + 1) := rfl
    have hpos := daysInMonth_pos d.year (k + 1)
    omega
  · -- borrow from the previous year
    have hd : d.day = 1 := by omega
    have hm : d.month = 1 := by omega
    have hyne : d.year ≠ 1 := by
      intro hcon
      exact hne (by cases d; simp_all)
    obtain ⟨z, hz⟩ : ∃ z, d.year = z + 1 := ⟨d.year - 1, by omega⟩
    have hz1 : 1 ≤ z := by omega
    have hsucc := daysBeforeYear_succ z hz1
    have h11 := monthsSum_11 z
    show toDayNumber ⟨d.year - 1, 12, 31⟩ + 1 = toDayNumber d
    simp only [toDayNumber, daysBeforeMonth, hz, hm, hd, Nat.add_sub_cancel]
    show daysBeforeYear z + monthsSum z 11 + (31 - 1) + 1 =
      daysBeforeYear (z + 1) + monthsSum (z + 1) 0 + (1 - 1)
    have h0 : monthsSum (z + 1) 0 = 0 := rfl
    rw [h0]
    split_ifs at hsucc h11 <;> omega

theorem subDays_spec {d : Date} (hv : ValidDate d) (hT : 366 ≤ toDayNumber d) :
    ∀ n, n ≤ 365 → ValidDate (subDays d n) ∧ toDayNumber (subDays d n) + n = toDayNumber d := by
  intro n
  induction n with
  | zero => intro _; exact ⟨hv, rfl⟩
  | succ k ih =>
    intro hk
    obtain ⟨hvk, hnk⟩ := ih (by omega)
    have hne : subDays d k ≠ ⟨1, 1, 1⟩ := by
      intro he
      rw [he, toDayNumber_epoch] at hnk
      omega
    have hstep := toDayNumber_prevDay hvk hne
    exact ⟨validDate_prevDay hvk hne, by simp only [subDays]; omega⟩

theorem year_prevDay_le (d : Date) : (prevDay d).year ≤ d.year := by
  unfold prevDay
  split_ifs <;> simp

theorem year_subDays_le (d : Date) (n : Nat) : (subDays d n).year ≤ d.year := by
  induction n with
  | zero => exact le_refl _
  | succ k ih => exact le_trans (year_prevDay_le _) ih

theorem subDays_add (d : Date) (a b : Nat) :
    subDays d (a + b) = subDays (subDays d a) b := by
  induction b with
  | zero => rfl
  | succ k ih => simp only [subDays, ← ih]; rfl

theorem toDayNumber_ge (d : Date) : daysBeforeYear d.year ≤ toDayNumber d :=
  Nat.le_add_right_of_le (Nat.le_add_right _ _)

theorem uWeek_step {d : Date} (hv : ValidDate d) (hT : 366 ≤ toDayNumber d)
    (hy : (subDays d 7).year = d.year) : uWeek (subDays d 7) + 1 = uWeek d := by
  obtain ⟨hve, hTe⟩ := subDays_spec hv hT 7 (by norm_num)
  have h1 := toDayNumber_ge (subDays d 7)
  have h2 := toDayNumber_ge d
  unfold uWeek ydayZ wdaySun
  rw [hy] at h1 ⊢
  omega

theorem lexLt_trans {a b c : Nat × Nat} (h1 : lexLt a b) (h2 : lexLt b c) : lexLt a c := by
  unfold lexLt at h1 h2 ⊢
  omega

theorem lexLt_ne {a b : Nat × Nat} (h : lexLt a b) : a ≠ b := by
  intro he
  rw [he] at h
  unfold lexLt at h
  omega

theorem weekKey_succ_lt {d : Date} (hv : ValidDate d) (hT : 730 ≤ toDayNumber d)
    {i : Nat} (hi : i ≤ 6) :
    lexLt (weekKey (subDays d (7 * (i + 1)))) (weekKey (subDays d (7 * i))) := by
  obtain ⟨hvi, hTi⟩ := subDays_spec hv (by omega) (7 * i) (by omega)
  have he : subDays d (7 * (i + 1)) = subDays (subDays d (7 * i)) 7 := by
    have h77 : 7 * (i + 1) = 7 * i + 7 := by ring
    rw [h77, subDays_add]
  have hTb : 366 ≤ toDayNumber (subDays d (7 * i)) := by omega
  have hyle : (subDays (subDays d (7 * i)) 7).year ≤ (subDays d (7 * i)).year :=
    year_subDays_le _ 7
  rw [he]
  unfold lexLt weekKey
  dsimp only
  by_cases hy : (subDays (subDays d (7 * i)) 7).year = (subDays d (7 * i)).year
  · have hu := uWeek_step hvi hTb hy
    omega
  · omega

theorem weekKey_chain_lt {d : Date} (hv : ValidDate d) (hT : 730 ≤ toDayNumber d) :
    ∀ i j, i < j → j ≤ 7 →
      lexLt (weekKey (subDays d (7 * j))) (weekKey (subDays d (7 * i))) := by
  intro i j
  induction j with
  | zero => omega
  | succ k ih =>
    intro hij hk
    rcases Nat.lt_or_ge i k with hik | hik
    · exact lexLt_trans (weekKey_succ_lt hv hT (by omega)) (ih hik (by omega))
    · have hieq : i = k := by omega
      rw [hieq]
      exact weekKey_succ_lt hv hT (by omega)

theorem weekKeys_nodup {d : Date} (hv : ValidDate d) (hT : 730 ≤ toDayNumber d) :
    ((List.range 8).map (fun i => weekKey (subDays d (7 * i)))).Nodup := by
  refine List.Nodup.map_on ?_ (List.nodup_range 8)
  intro i hi j hj hij
  simp only [List.mem_range] at hi hj
  by_contra hne
  rcases Nat.lt_or_ge i j with h | h
  · exact lexLt_ne (weekKey_chain_lt hv hT i j h (by omega)) (by rw [hij])
  · have hj2 : j < i := by omega
    exact lexLt_ne (weekKey_chain_lt hv hT j i hj2 (by omega)) (by rw [hij])

theorem dayKeys_nodup {d : Date} (hv : ValidDate d) (hT : 366 ≤ toDayNumber d) :
    ((List.range 7).map (fun i => subDays d i)).Nodup := by
  refine List.Nodup.map_on ?_ (List.nodup_range 7)
  intro i hi j hj hij
  simp only [List.mem_range] at hi hj
  have h1 := (subDays_spec hv hT i (by omega)).2
  have h2 := (subDays_spec hv hT j (by omega)).2
  have : toDayNumber (subDays d i) = toDayNumber (subDays d j) := by rw [hij]
  omega

section AListLemmas

variable {κ β : Type*} [DecidableEq κ]

theorem alKeys_updateIn (k : κ) (f : β → β) (l : List (κ × β)) :
    alKeys (updateIn k f l) = alKeys l := by
  induction l with
  | nil => rfl
  | cons p l ih =>
    unfold updateIn
    split_ifs <;> simp [alKeys] at ih ⊢ <;> exact ih

theorem alKeys_cons (p : κ × β) (l : List (κ × β)) : alKeys (p :: l) = p.1 :: alKeys l := rfl

theorem setKey_not_mem {k : κ} {l : List (κ × β)} (h : k ∉ alKeys l) (v : β) :
    setKey k v l = l ++ [(k, v)] := by
  induction l with
  | nil => rfl
  | cons p l ih =>
    rw [alKeys_cons, List.mem_cons] at h
    push_neg at h
    unfold setKey
    rw [if_neg (fun hc => h.1 hc.symm), ih h.2]
    rfl

theorem alKeys_setKey_mem {k : κ} {l : List (κ × β)} (h : k ∈ alKeys l) (v : β) :
    alKeys (setKey k v l) = alKeys l := by
  induction l with
  | nil => simp [alKeys] at h
  | cons p l ih =>
    unfold setKey
    split_ifs with he
    · rfl
    · rw [alKeys_cons, List.mem_cons] at h
      rcases h with h | h
      · exact absurd h.symm he
      · rw [alKeys_cons, alKeys_cons, ih h]

theorem length_setKey_le (k : κ) (v : β) (l : List (κ × β)) :
    (setKey k v l).length ≤ l.length + 1 := by
  induction l with
  | nil => simp [setKey]
  | cons p l ih =>
    unfold setKey
    split_ifs <;> simp <;> omega

theorem setKey_val_mem {q : κ × β} {k : κ} {v : β} {l : List (κ × β)}
    (h : q ∈ setKey k v l) : q.2 = v ∨ q ∈ l := by
  induction l with
  | nil => simp [setKey] at h; simp [h]
  | cons p l ih =>
    unfold setKey at h
    split_ifs at h with he
    · rcases List.mem_cons.mp h with h | h
      · left; rw [h]
      · right; exact List.mem_cons_of_mem _ h
    · rcases List.mem_cons.mp h with h | h
      · right; exact h ▸ List.mem_cons_self _ _
      · rcases ih h with h | h
        · left; exact h
        · right; exact List.mem_cons_of_mem _ h

theorem alGet?_updateIn_self (k : κ) (f : β → β) (l : List (κ × β)) :
    alGet? k (updateIn k f l) = (alGet? k l).map f := by
  induction l with
  | nil => rfl
  | cons p l ih =>
    unfold updateIn alGet?
    split_ifs with he
    · simp [alGet?, he]
    · simpa [alGet?, he] using ih

theorem alGet?_updateIn_ne {k q : κ} (hne : q ≠ k) (f : β → β) (l : List (κ × β)) :
    alGet? q (updateIn k f l) = alGet? q l := by
  induction l with
  | nil => rfl
  | cons p l ih =>
    by_cases he : p.1 = k
    · unfold updateIn
      rw [if_pos he]
      have hpq : ¬ p.1 = q := by rw [he]; exact fun hc => hne hc.symm
      unfold alGet?
      rw [if_neg hpq, if_neg hpq]
    · unfold updateIn
      rw [if_neg he]
      unfold alGet?
      by_cases hq : p.1 = q
      · rw [if_pos hq, if_pos hq]
      · rw [if_neg hq, if_neg hq, ih]

theorem alGet?_upsert_self (k : κ) (z : β) (f : β → β) (l : List (κ × β)) :
    alGet? k (upsert k z f l) = some (f ((alGet? k l).getD z)) := by
  induction l with
  | nil => simp [upsert, alGet?]
  | cons p l ih =>
    unfold upsert alGet?
    split_ifs with he
    · simp [alGet?, he]
    · simpa [alGet?, he] using ih

theorem alGet?_upsert_ne {k q : κ} (hne : q ≠ k) (z : β) (f : β → β) (l : List (κ × β)) :
    alGet? q (upsert k z f l) = alGet? q l := by
  induction l with
  | nil =>
    show (if k = q then some (f z) else alGet? q ([] : List (κ × β))) = alGet? q []
    rw [if_neg (fun hc => hne hc.symm)]
  | cons p l ih =>
    by_cases he : p.1 = k
    · unfold upsert
      rw [if_pos he]
      have hpq : ¬ p.1 = q := by rw [he]; exact fun hc => hne hc.symm
      unfold alGet?
      rw [if_neg hpq, if_neg hpq]
    · unfold upsert
      rw [if_neg he]
      unfold alGet?
      by_cases hq : p.1 = q
      · rw [if_pos hq, if_pos hq]
      · rw [if_neg hq, if_neg hq, ih]

theorem alKeys_append (l m : List (κ × β)) : alKeys (l ++ m) = alKeys l ++ alKeys m :=
  List.map_append _ _ _

theorem upsert_not_mem {k : κ} {l : List (κ × β)} (h : k ∉ alKeys l) (z : β) (f : β → β) :
    upsert k z f l = l ++ [(k, f z)] := by
  induction l with
  | nil => rfl
  | cons p l ih =>
    rw [alKeys_cons, List.mem_cons] at h
    push_neg at h
    unfold upsert
    rw [if_neg (fun hc => h.1 hc.symm), ih h.2]
    rfl

theorem alKeys_upsert_mem {k : κ} {l : List (κ × β)} (h : k ∈ alKeys l) (z : β) (f : β → β) :
    alKeys (upsert k z f l) = alKeys l := by
  induction l with
  | nil => simp [alKeys] at h
  | cons p l ih =>
    unfold upsert
    split_ifs with he
    · rfl
    · rw [alKeys_cons, List.mem_cons] at h
      rcases h with h | h
      · exact absurd h.symm he
      · rw [alKeys_cons, alKeys_cons, ih h]

theorem mem_alKeys_upsert {k q : κ} {l : List (κ × β)} (z : β) (f : β → β) :
    q ∈ alKeys (upsert k z f l) ↔ q = k ∨ q ∈ alKeys l := by
  by_cases h : k ∈ alKeys l
  · rw [alKeys_upsert_mem h]
    constructor
    · exact Or.inr
    · rintro (rfl | hq)
      · exact h
      · exact hq
  · rw [upsert_not_mem h, alKeys_append]
    simp [alKeys, or_comm]

theorem nodup_alKeys_upsert {k : κ} {l : List (κ × β)} (h : (alKeys l).Nodup)
    (z : β) (f : β → β) : (alKeys (upsert k z f l)).Nodup := by
  by_cases hm : k ∈ alKeys l
  · rw [alKeys_upsert_mem hm]; exact h
  · rw [upsert_not_mem hm, alKeys_append]
    have hs : alKeys [(k, f z)] = [k] := rfl
    rw [hs]
    refine List.Nodup.append h (List.nodup_singleton _) ?_
    intro a ha hb
    rw [List.mem_singleton] at hb
    subst hb
    exact hm ha

theorem nodup_alKeys_setKey {k : κ} {l : List (κ × β)} (h : (alKeys l).Nodup) (v : β) :
    (alKeys (setKey k v l)).Nodup := by
  by_cases hm : k ∈ alKeys l
  · rw [alKeys_setKey_mem hm]; exact h
  · rw [setKey_not_mem hm, alKeys_append]
    have hs : alKeys [(k, v)] = [k] := rfl
    rw [hs]
    refine List.Nodup.append h (List.nodup_singleton _) ?_
    intro a ha hb
    rw [List.mem_singleton] at hb
    subst hb
    exact hm ha

theorem alGet?_eq_none_iff {k : κ} {l : List (κ × β)} :
    alGet? k l = none ↔ k ∉ alKeys l := by
  induction l with
  | nil => simp [alGet?, alKeys]
  | cons p l ih =>
    unfold alGet?
    rw [alKeys_cons, List.mem_cons]
    split_ifs with he
    · simp [he]
    · rw [ih]
      constructor
      · intro h
        push_neg
        exact ⟨fun hc => he hc.symm, h⟩
      · intro h
        push_neg at h
        exact h.2

theorem mem_iff_alGet?_of_nodup {k : κ} {b : β} {l : List (κ × β)}
    (h : (alKeys l).Nodup) : (k, b) ∈ l ↔ alGet? k l = some b := by
  induction l with
  | nil => simp [alGet?]
  | cons p l ih =>
    rw [alKeys_cons] at h
    obtain ⟨hp, hl⟩ := List.nodup_cons.mp h
    unfold alGet?
    split_ifs with he
    · simp only [List.mem_cons]
      constructor
      · rintro (rfl | hm)
        · rfl
        · exact absurd (he ▸ List.mem_map_of_mem Prod.fst hm : p.1 ∈ alKeys l) (he ▸ hp)
      · intro hs
        left
        have : p.2 = b := by injection hs
        rw [← he, ← this]
    · rw [List.mem_cons, ih hl]
      constructor
      · rintro (rfl | hm)
        · exact absurd rfl he
        · exact hm
      · exact Or.inr

end AListLemmas

section FoldLemmas

variable {τ : Type*} {κ β : Type*} [DecidableEq κ]

theorem alGet?_foldl_upsert_some (kf : τ → κ) (z : τ → β) (f : τ → β → β) (k : κ) :
    ∀ (l : List τ) (st : List (κ × β)) (b : β), alGet? k st = some b →
      alGet? k (l.foldl (fun d t => upsert (kf t) (z t) (f t) d) st) =
        some ((l.filter (fun t => kf t = k)).foldl (fun b t => f t b) b) := by
  intro l
  induction l with
  | nil => intro st b h; simpa using h
  | cons t l ih =>
    intro st b h
    by_cases he : kf t = k
    · have hst : alGet? k (upsert (kf t) (z t) (f t) st) = some (f t b) := by
        rw [he, alGet?_upsert_self, h]
        rfl
      rw [List.foldl_cons]
      rw [ih _ _ hst]
      rw [List.filter_cons_of_pos (by simpa using he), List.foldl_cons]
    · have hst : alGet? k (upsert (kf t) (z t) (f t) st) = some b := by
        rw [alGet?_upsert_ne (fun hc => he hc.symm), h]
      rw [List.foldl_cons, ih _ _ hst,
        List.filter_cons_of_neg (by simpa using he)]

theorem alGet?_foldl_upsert_none_nil (kf : τ → κ) (z : τ → β) (f : τ → β → β) (k : κ) :
    ∀ (l : List τ) (st : List (κ × β)), alGet? k st = none →
      l.filter (fun t => kf t = k) = [] →
      alGet? k (l.foldl (fun d t => upsert (kf t) (z t) (f t) d) st) = none := by
  intro l
  induction l with
  | nil => intro st h _; simpa using h
  | cons t l ih =>
    intro st h hf
    by_cases he : kf t = k
    · rw [List.filter_cons_of_pos (by simpa using he)] at hf
      exact absurd hf (List.cons_ne_nil _ _)
    · rw [List.filter_cons_of_neg (by simpa using he)] at hf
      rw [List.foldl_cons]
      exact ih _ (by rw [alGet?_upsert_ne (fun hc => he hc.symm)]; exact h) hf

theorem alGet?_foldl_upsert_none_cons (kf : τ → κ) (z : τ → β) (f : τ → β → β) (k : κ) :
    ∀ (l : List τ) (st : List (κ × β)) (t0 : τ) (rest : List τ), alGet? k st = none →
      l.filter (fun t => kf t = k) = t0 :: rest →
      alGet? k (l.foldl (fun d t => upsert (kf t) (z t) (f t) d) st) =
        some ((t0 :: rest).foldl (fun b t => f t b) (z t0)) := by
  intro l
  induction l with
  | nil => intro st t0 rest _ hf; exact absurd hf (by simp)
  | cons t l ih =>
    intro st t0 rest h hf
    by_cases he : kf t = k
    · rw [List.filter_cons_of_pos (by simpa using he)] at hf
      injection hf with h1 h2
      subst h1
      have hst : alGet? k (upsert (kf t) (z t) (f t) st) = some (f t (z t)) := by
        rw [he, alGet?_upsert_self, h]
        rfl
      rw [List.foldl_cons, alGet?_foldl_upsert_some kf z f k l _ _ hst, h2, List.foldl_cons]
    · rw [List.filter_cons_of_neg (by simpa using he)] at hf
      rw [List.foldl_cons]
      exact ih _ t0 rest (by rw [alGet?_upsert_ne (fun hc => he hc.symm)]; exact h) hf

theorem nodup_alKeys_foldl_upsert (kf : τ → κ) (z : τ → β) (f : τ → β → β) :
    ∀ (l : List τ) (st : List (κ × β)), (alKeys st).Nodup →
      (alKeys (l.foldl (fun d t => upsert (kf t) (z t) (f t) d) st)).Nodup := by
  intro l
  induction l with
  | nil => intro st h; exact h
  | cons t l ih =>
    intro st h
    exact ih _ (nodup_alKeys_upsert h _ _)

theorem mem_alKeys_foldl_upsert (kf : τ → κ) (z : τ → β) (f : τ → β → β) (q : κ) :
    ∀ (l : List τ) (st : List (κ × β)),
      (q ∈ alKeys (l.foldl (fun d t => upsert (kf t) (z t) (f t) d) st) ↔
        q ∈ alKeys st ∨ ∃ t ∈ l, kf t = q) := by
  intro l
  induction l with
  | nil => intro st; simp
  | cons t l ih =>
    intro st
    rw [List.foldl_cons, ih, mem_alKeys_upsert]
    simp only [List.mem_cons]
    constructor
    · rintro ((rfl | hst) | ⟨u, hu, rfl⟩)
      · exact Or.inr ⟨t, Or.inl rfl, rfl⟩
      · exact Or.inl hst
      · exact Or.inr ⟨u, Or.inr hu, rfl⟩
    · rintro (hst | ⟨u, (rfl | hu), rfl⟩)
      · exact Or.inl (Or.inr hst)
      · exact Or.inl (Or.inl rfl)
      · exact Or.inr ⟨u, hu, rfl⟩

theorem nodup_alKeys_groupFold (kf : τ → κ) (z : τ → β) (f : τ → β → β) (l : List τ) :
    (alKeys (groupFold kf z f l)).Nodup :=
  nodup_alKeys_foldl_upsert kf z f l [] List.nodup_nil

theorem mem_alKeys_groupFold (kf : τ → κ) (z : τ → β) (f : τ → β → β) (q : κ) (l : List τ) :
    q ∈ alKeys (groupFold kf z f l) ↔ ∃ t ∈ l, kf t = q := by
  unfold groupFold
  rw [mem_alKeys_foldl_upsert]
  simp [alKeys]

theorem length_groupFold (kf : τ → κ) (z : τ → β) (f : τ → β → β) (l : List τ) :
    (groupFold kf z f l).length = (l.map kf).toFinset.card := by
  have h1 : (groupFold kf z f l).length = (alKeys (groupFold kf z f l)).length :=
    (List.length_map _ _).symm
  have h2 : (alKeys (groupFold kf z f l)).toFinset = (l.map kf).toFinset := by
    ext q
    simp only [List.mem_toFinset, mem_alKeys_groupFold, List.mem_map]
  rw [h1, ← List.toFinset_card_of_nodup (nodup_alKeys_groupFold kf z f l), h2]

theorem foldl_setKey_eq_append :
    ∀ (ps : List (κ × β)) (st : List (κ × β)), (alKeys st ++ alKeys ps).Nodup →
      ps.foldl (fun d p => setKey p.1 p.2 d) st = st ++ ps := by
  intro ps
  induction ps with
  | nil => intro st _; simp
  | cons p ps ih =>
    intro st h
    rw [alKeys_cons] at h
    have hnm : p.1 ∉ alKeys st := by
      intro hc
      exact (List.disjoint_of_nodup_append h) hc (List.mem_cons_self _ _)
    rw [List.foldl_cons, setKey_not_mem hnm]
    rw [ih (st ++ [(p.1, p.2)]) (by
      rw [alKeys_append]
      have : alKeys st ++ alKeys [(p.1, p.2)] ++ alKeys ps =
          alKeys st ++ (alKeys [(p.1, p.2)] ++ alKeys ps) := by
        rw [List.append_assoc]
      rw [this]
      simpa [alKeys] using h)]
    simp

theorem length_foldl_setKey_le :
    ∀ (ps : List (κ × β)) (st : List (κ × β)),
      (ps.foldl (fun d p => setKey p.1 p.2 d) st).length ≤ st.length + ps.length := by
  intro ps
  induction ps with
  | nil => intro st; simp
  | cons p ps ih =>
    intro st
    rw [List.foldl_cons]
    calc (ps.foldl (fun d p => setKey p.1 p.2 d) (setKey p.1 p.2 st)).length
        ≤ (setKey p.1 p.2 st).length + ps.length := ih _
      _ ≤ st.length + 1 + ps.length := by
          have := length_setKey_le p.1 p.2 st
          omega
      _ = st.length + (p :: ps).length := by simp; omega

end FoldLemmas

section PySort

variable {α : Type*} {γ : Type*} [LinearOrder γ]

theorem pySortDesc_perm (key : α → γ) (l : List α) : List.Perm (pySortDesc key l) l :=
  List.perm_insertionSort _ l

theorem pySortDesc_length (key : α → γ) (l : List α) :
    (pySortDesc key l).length = l.length :=
  (pySortDesc_perm key l).length_eq

theorem pySortDesc_mem (key : α → γ) (l : List α) (x : α) :
    x ∈ pySortDesc key l ↔ x ∈ l :=
  (pySortDesc_perm key l).mem_iff

theorem pySortDesc_sorted (key : α → γ) (l : List α) :
    (pySortDesc key l).Pairwise (fun x y => key y ≤ key x) := by
  haveI ht : IsTotal α (fun x y => key y ≤ key x) := ⟨fun a b => le_total (key b) (key a)⟩
  haveI htr : IsTrans α (fun x y => key y ≤ key x) :=
    ⟨fun _ _ _ hab hbc => le_trans hbc hab⟩
  exact List.sorted_insertionSort _ l

/-- Stability: the elements whose key equals any fixed value appear in the
sorted output exactly in their original order. -/
theorem pySortDesc_filter_stable (key : α → γ) (l : List α) (v : γ) :
    (pySortDesc key l).filter (fun x => key x = v) = l.filter (fun x => key x = v) := by
  set p : α → Bool := fun x => decide (key x = v) with hp
  have hc : List.Sublist (l.filter p) l := List.filter_sublist l
  have hpair : (l.filter p).Pairwise (fun x y => key y ≤ key x) := by
    have hall : ∀ x ∈ l.filter p, key x = v := by
      intro x hx
      have := List.of_mem_filter hx
      simpa [hp] using this
    have : (l.filter p).Pairwise (fun x y => key x = v ∧ key y = v) := by
      apply List.Pairwise.and_mem.mpr
      apply List.pairwise_of_forall_mem_list
      intro x hx y hy
      exact ⟨hx, hy, hall x hx, hall y hy⟩
    exact this.imp (fun h => by rw [h.1, h.2])
  have hsub : List.Sublist (l.filter p) (pySortDesc key l) :=
    List.sublist_insertionSort hpair hc
  have hsub2 : List.Sublist (l.filter p) ((pySortDesc key l).filter p) := by
    have h1 := hsub.filter p
    have h2 : (l.filter p).filter p = l.filter p := by
      apply List.filter_eq_self.mpr
      intro a ha
      exact List.of_mem_filter ha
    rwa [h2] at h1
  have hperm : List.Perm ((pySortDesc key l).filter p) (l.filter p) :=
    (pySortDesc_perm key l).filter p
  exact (hsub2.eq_of_length hperm.length_eq.symm).symm

end PySort

/-! ### Stock health classification (claim C3) -/

theorem classify_critical_iff (s : StockRec) :
    classify_stock_spec s = StockHealth.critical ↔ s.current_stock = 0 := by
  unfold classify_stock_spec
  split_ifs with h1 h2 <;> simp [h1]

theorem classify_low_iff (s : StockRec) :
    classify_stock_spec s = StockHealth.low ↔
      0 < s.current_stock ∧ s.current_stock ≤ s.reorder_level := by
  unfold classify_stock_spec
  split_ifs with h1 h2
  · constructor
    · intro h; exact absurd h (by simp)
    · intro h; omega
  · simp [h2]
  · simp [h2]

theorem low_stock_count_split (l : List StockRec)
    (hcs : ∀ s ∈ l, 0 ≤ s.current_stock) (hrl : ∀ s ∈ l, 0 ≤ s.reorder_level) :
    (low_stock_items l).length =
      (l.filter (fun s => classify_stock_spec s = StockHealth.low)).length +
      (l.filter (fun s => classify_stock_spec s = StockHealth.critical)).length := by
  induction l with
  | nil => rfl
  | cons s l ih =>
    have hs := hcs s (List.mem_cons_self _ _)
    have hr := hrl s (List.mem_cons_self _ _)
    have ih2 := ih (fun x hx => hcs x (List.mem_cons_of_mem _ hx))
      (fun x hx => hrl x (List.mem_cons_of_mem _ hx))
    unfold low_stock_items at ih2 ⊢
    rw [List.filter_cons, List.filter_cons, List.filter_cons]
    by_cases h1 : s.current_stock ≤ s.reorder_level
    · by_cases h0 : s.current_stock = 0
      · have hcrit : classify_stock_spec s = StockHealth.critical :=
          (classify_critical_iff s).mpr h0
        have hlow : ¬ classify_stock_spec s = StockHealth.low := by
          rw [hcrit]; simp
        rw [if_pos (by simpa using h1), if_neg (by simpa using hlow),
          if_pos (by simpa using hcrit)]
        simp only [List.length_cons]
        omega
      · have hlow : classify_stock_spec s = StockHealth.low :=
          (classify_low_iff s).mpr ⟨by omega, h1⟩
        have hcrit : ¬ classify_stock_spec s = StockHealth.critical := by
          rw [hlow]; simp
        rw [if_pos (by simpa using h1), if_pos (by simpa using hlow),
          if_neg (by simpa using hcrit)]
        simp only [List.length_cons]
        omega
    · have h0 : ¬ s.current_stock = 0 := fun hc => h1 (by omega)
      have hlow : ¬ classify_stock_spec s = StockHealth.low := by
        rw [classify_low_iff]
        intro hc
        exact h1 hc.2
      have hcrit : ¬ classify_stock_spec s = StockHealth.critical := by
        rw [classify_critical_iff]
        exact h0
      rw [if_neg (by simpa using h1), if_neg (by simpa using hlow),
        if_neg (by simpa using hcrit)]
      exact ih2

theorem critical_count_split (l : List StockRec)
    (hrl : ∀ s ∈ l, 0 ≤ s.reorder_level) :
    (critical_stock_items l).length =
      (l.filter (fun s => classify_stock_spec s = StockHealth.critical)).length := by
  unfold critical_stock_items low_stock_items
  induction l with
  | nil => rfl
  | cons s l ih =>
    have hr := hrl s (List.mem_cons_self _ _)
    have ih2 := ih (fun x hx => hrl x (List.mem_cons_of_mem _ hx))
    rw [List.filter_cons]
    by_cases h1 : s.current_stock ≤ s.reorder_level
    · rw [if_pos (by simpa using h1), List.filter_cons, List.filter_cons]
      by_cases h0 : s.current_stock = 0
      · rw [if_pos (by simpa using h0),
          if_pos (by simpa using (classify_critical_iff s).mpr h0)]
        simpa using ih2
      · rw [if_neg (by simpa using h0),
          if_neg (by simpa [classify_critical_iff] using h0)]
        exact ih2
    · have h0 : ¬ s.current_stock = 0 := fun hc => h1 (by omega)
      rw [if_neg (by simpa using h1), List.filter_cons,
        if_neg (by simpa [classify_critical_iff] using h0)]
      exact ih2

/-! ### Sign helpers over ℚ (claim C4) -/

theorem qmul_pos_iff {x c : ℚ} (hc : 0 < c) : 0 < x * c ↔ 0 < x :=
  mul_pos_iff_of_pos_right hc

theorem qmul_neg_iff {x c : ℚ} (hc : 0 < c) : x * c < 0 ↔ x < 0 := by
  constructor
  · intro h
    by_contra hx
    push_neg at hx
    exact absurd h (not_lt.mpr (mul_nonneg hx (le_of_lt hc)))
  · intro h
    exact mul_neg_of_neg_of_pos h hc

theorem qmul_eq_zero_iff {x c : ℚ} (hc : 0 < c) : x * c = 0 ↔ x = 0 := by
  rw [mul_eq_zero]
  simp [hc.ne']

/-- Claim C3, counterexample to the claim as stated: for the stock record
`{current_stock: 0, reorder_level: -1}` the spec's classification is
`critical`, yet the code's low-stock count and critical-stock count are both
0 (the record fails `current_stock <= reorder_level`), and the efficiency is
reported as 100 instead of `(1 - 1) / 1 * 100 = 0`. Dually, for
`{current_stock: -1, reorder_level: 0}` the spec's classification is
`healthy`, yet the code counts the record as low stock, so the reported
low-stock count (1) differs from the number of low plus critical records
(0). Each record breaks one of the two nonnegativity hypotheses of the
amended theorem, so both are necessary. -/
theorem c3_counterexample :
    classify_stock_spec ⟨0, -1, 0, none⟩ = StockHealth.critical ∧
    (get_inventory_analytics [⟨0, -1, 0, none⟩]).low_stock_count = 0 ∧
    (get_inventory_analytics [⟨0, -1, 0, none⟩]).critical_stock_count = 0 ∧
    (get_inventory_analytics [⟨0, -1, 0, none⟩]).stock_efficiency = 100 ∧
    classify_stock_spec ⟨-1, 0, 0, none⟩ = StockHealth.healthy ∧
    (get_inventory_analytics [⟨-1, 0, 0, none⟩]).low_stock_count = 1 ∧
    (([(⟨-1, 0, 0, none⟩ : StockRec)].filter
        (fun s => classify_stock_spec s = StockHealth.low)).length +
      ([(⟨-1, 0, 0, none⟩ : StockRec)].filter
        (fun s => classify_stock_spec s = StockHealth.critical)).length) = 0 := by
  have hlow : low_stock_items [(⟨0, -1, 0, none⟩ : StockRec)] = [] := by decide
  refine ⟨by decide, by decide, by decide, ?_, by decide, by decide, by decide⟩
  unfold get_inventory_analytics
  rw [hlow]
  norm_num

/-- Claim C3 (amended): for stock records with nonnegative `current_stock`
and nonnegative `reorder_level` (each hypothesis necessary, per the
counterexample), every record is classified as exactly one of critical
(`current_stock == 0`), low (`current_stock > 0` and `<= reorder_level`) or
healthy; the reported low-stock count equals low + critical, the critical
count counts the critical records, and the efficiency equals
`(total − low_count) / total × 100`, defined as 100 when the total is 0. -/
theorem c3_stock_health (stock_items : List StockRec)
    (hcs : ∀ s ∈ stock_items, 0 ≤ s.current_stock)
    (hrl : ∀ s ∈ stock_items, 0 ≤ s.reorder_level) :
    (∀ s ∈ stock_items,
      (classify_stock_spec s = StockHealth.critical ↔ s.current_stock = 0) ∧
      (classify_stock_spec s = StockHealth.low ↔
        0 < s.current_stock ∧ s.current_stock ≤ s.reorder_level)) ∧
    (get_inventory_analytics stock_items).low_stock_count =
      (stock_items.filter (fun s => classify_stock_spec s = StockHealth.low)).length +
      (stock_items.filter (fun s => classify_stock_spec s = StockHealth.critical)).length ∧
    (get_inventory_analytics stock_items).critical_stock_count =
      (stock_items.filter (fun s => classify_stock_spec s = StockHealth.critical)).length ∧
    (get_inventory_analytics stock_items).stock_efficiency =
      (if stock_items.length = 0 then (100 : ℚ)
       else ((stock_items.length : ℚ) -
          ((get_inventory_analytics stock_items).low_stock_count : ℚ)) /
          (stock_items.length : ℚ) * 100) := by
  refine ⟨fun s _ => ⟨classify_critical_iff s, classify_low_iff s⟩,
    low_stock_count_split _ hcs hrl, critical_count_split _ hrl, ?_⟩
  rcases Nat.eq_zero_or_pos stock_items.length with h | h
  · simp [get_inventory_analytics, h]
  · rw [if_neg (by omega)]
    show (if stock_items.length > 0 then _ else _) = _
    rw [if_pos h]
    rfl

/-- Claim C3 witness: the amended theorem applied to the spec's own scenario
records (stocks 0, 15, 25 against reorder level 20). -/
theorem c3_stock_health_witness :
    (∀ s ∈ ([⟨0, 20, 0, none⟩, ⟨15, 20, 0, none⟩, ⟨25, 20, 0, none⟩] : List StockRec),
      0 ≤ s.current_stock) ∧
    (∀ s ∈ ([⟨0, 20, 0, none⟩, ⟨15, 20, 0, none⟩, ⟨25, 20, 0, none⟩] : List StockRec),
      0 ≤ s.reorder_level) ∧
    (get_inventory_analytics
        [⟨0, 20, 0, none⟩, ⟨15, 20, 0, none⟩, ⟨25, 20, 0, none⟩]).low_stock_count =
      (([⟨0, 20, 0, none⟩, ⟨15, 20, 0, none⟩, ⟨25, 20, 0, none⟩] : List StockRec).filter
        (fun s => classify_stock_spec s = StockHealth.low)).length +
      (([⟨0, 20, 0, none⟩, ⟨15, 20, 0, none⟩, ⟨25, 20, 0, none⟩] : List StockRec).filter
        (fun s => classify_stock_spec s = StockHealth.critical)).length :=
  ⟨by decide, by decide,
    (c3_stock_health [⟨0, 20, 0, none⟩, ⟨15, 20, 0, none⟩, ⟨25, 20, 0, none⟩]
      (by decide) (by decide)).2.1⟩

/-- Claim C4: in the vendor analytics, the reported growth rate equals
`(this_month − previous_month) / previous_month × 100` when the
previous-month revenue is strictly positive (and then its sign matches the
sign of `this_month − previous_month`), and equals 0 when the previous-month
revenue is 0. -/
theorem c4_growth_rate (now : DateTime) (orders : List OrderRec)
    (menu_items : List MenuItemRec) (stock_items : List StockRec) :
    (0 < ((previous_month_orders_of now orders).map (fun o => o.total_amount)).sum →
      (get_vendor_analytics_data now orders menu_items stock_items).revenue_growth =
        (((this_month_orders_of now orders).map (fun o => o.total_amount)).sum -
            ((previous_month_orders_of now orders).map (fun o => o.total_amount)).sum) /
          ((previous_month_orders_of now orders).map (fun o => o.total_amount)).sum * 100 ∧
      (0 < (get_vendor_analytics_data now orders menu_items stock_items).revenue_growth ↔
        ((previous_month_orders_of now orders).map (fun o => o.total_amount)).sum <
          ((this_month_orders_of now orders).map (fun o => o.total_amount)).sum) ∧
      ((get_vendor_analytics_data now orders menu_items stock_items).revenue_growth < 0 ↔
        ((this_month_orders_of now orders).map (fun o => o.total_amount)).sum <
          ((previous_month_orders_of now orders).map (fun o => o.total_amount)).sum) ∧
      ((get_vendor_analytics_data now orders menu_items stock_items).revenue_growth = 0 ↔
        ((this_month_orders_of now orders).map (fun o => o.total_amount)).sum =
          ((previous_month_orders_of now orders).map (fun o => o.total_amount)).sum)) ∧
    (((previous_month_orders_of now orders).map (fun o => o.total_amount)).sum = 0 →
      (get_vendor_analytics_data now orders menu_items stock_items).revenue_growth = 0) := by
  set tm := ((this_month_orders_of now orders).map (fun o => o.total_amount)).sum with htm
  set pm := ((previous_month_orders_of now orders).map (fun o => o.total_amount)).sum with hpm
  have hg : (get_vendor_analytics_data now orders menu_items stock_items).revenue_growth =
      if pm > 0 then (tm - pm) / pm * 100 else 0 := rfl
  constructor
  · intro hp
    have he : (tm - pm) / pm * 100 = (tm - pm) * (100 / pm) := by ring
    rw [hg, if_pos hp]
    refine ⟨rfl, ?_, ?_, ?_⟩
    · rw [he, qmul_pos_iff (by positivity), sub_pos]
    · rw [he, qmul_neg_iff (by positivity), sub_neg]
    · rw [he, qmul_eq_zero_iff (by positivity), sub_eq_zero]
  · intro hp
    rw [hg, if_neg (by rw [hp]; exact lt_irrefl 0)]

/-- Claim C4 witness: the spec's own scenario — a 100-revenue order this
month and a 50-revenue order the previous month — has positive
previous-month revenue and the growth-rate sign matches. -/
theorem c4_growth_rate_witness :
    0 < ((previous_month_orders_of ⟨⟨2026, 3, 15⟩, 12, 0⟩
        [⟨some 1, some 2, 100, "pending", some ⟨⟨2026, 3, 15⟩, 12, 0⟩⟩,
         ⟨some 1, some 2, 50, "pending", some ⟨⟨2026, 2, 10⟩, 12, 0⟩⟩]).map
        (fun o => o.total_amount)).sum ∧
    (0 < (get_vendor_analytics_data ⟨⟨2026, 3, 15⟩, 12, 0⟩
        [⟨some 1, some 2, 100, "pending", some ⟨⟨2026, 3, 15⟩, 12, 0⟩⟩,
         ⟨some 1, some 2, 50, "pending", some ⟨⟨2026, 2, 10⟩, 12, 0⟩⟩] [] []).revenue_growth ↔
      ((previous_month_orders_of ⟨⟨2026, 3, 15⟩, 12, 0⟩
        [⟨some 1, some 2, 100, "pending", some ⟨⟨2026, 3, 15⟩, 12, 0⟩⟩,
         ⟨some 1, some 2, 50, "pending", some ⟨⟨2026, 2, 10⟩, 12, 0⟩⟩]).map
        (fun o => o.total_amount)).sum <
      ((this_month_orders_of ⟨⟨2026, 3, 15⟩, 12, 0⟩
        [⟨some 1, some 2, 100, "pending", some ⟨⟨2026, 3, 15⟩, 12, 0⟩⟩,
         ⟨some 1, some 2, 50, "pending", some ⟨⟨2026, 2, 10⟩, 12, 0⟩⟩]).map
        (fun o => o.total_amount)).sum) := by
  have hpm : previous_month_orders_of ⟨⟨2026, 3, 15⟩, 12, 0⟩
      [⟨some 1, some 2, 100, "pending", some ⟨⟨2026, 3, 15⟩, 12, 0⟩⟩,
       ⟨some 1, some 2, 50, "pending", some ⟨⟨2026, 2, 10⟩, 12, 0⟩⟩] =
      [⟨some 1, some 2, 50, "pending", some ⟨⟨2026, 2, 10⟩, 12, 0⟩⟩] := by decide
  have hpos : 0 < ((previous_month_orders_of ⟨⟨2026, 3, 15⟩, 12, 0⟩
      [⟨some 1, some 2, 100, "pending", some ⟨⟨2026, 3, 15⟩, 12, 0⟩⟩,
       ⟨some 1, some 2, 50, "pending", some ⟨⟨2026, 2, 10⟩, 12, 0⟩⟩]).map
      (fun o => o.total_amount)).sum := by
    rw [hpm]
    norm_num
  exact ⟨hpos,
    ((c4_growth_rate ⟨⟨2026, 3, 15⟩, 12, 0⟩
      [⟨some 1, some 2, 100, "pending", some ⟨⟨2026, 3, 15⟩, 12, 0⟩⟩,
       ⟨some 1, some 2, 50, "pending", some ⟨⟨2026, 2, 10⟩, 12, 0⟩⟩] [] []).1 hpos).2.1⟩

/-- Claim C6: the peak-hours output has at most 9 entries, contains no
bucket with zero orders, is sorted descending by order count, and renders
hours on a 12-hour clock with AM/PM (hour 0 is "12 AM", hour 13 is "1 PM"). -/
theorem c6_peak_hours (orders : List OrderRec) :
    (get_vendor_peak_hours orders).length ≤ 9 ∧
    (∀ e ∈ get_vendor_peak_hours orders, 0 < e.orders) ∧
    (get_vendor_peak_hours orders).Pairwise (fun x y => y.orders ≤ x.orders) ∧
    (∀ e ∈ get_vendor_peak_hours orders, e.display_hour = display_hour e.hour) ∧
    display_hour 0 = "12 AM" ∧ display_hour 13 = "1 PM" := by
  have hmem : ∀ e ∈ get_vendor_peak_hours orders, e ∈ peak_hours_list orders := by
    intro e he
    exact (pySortDesc_mem _ _ e).mp (List.mem_of_mem_take he)
  refine ⟨List.length_take_le 9 _, ?_, ?_, ?_, rfl, rfl⟩
  · intro e he
    obtain ⟨p, hp, hpe⟩ := List.mem_map.mp (hmem e he)
    have hf := List.of_mem_filter hp
    rw [← hpe]
    simpa using hf
  · exact (pySortDesc_sorted _ _).sublist (List.take_sublist _ _)
  · intro e he
    obtain ⟨p, hp, hpe⟩ := List.mem_map.mp (hmem e he)
    rw [← hpe]

/-- Claim C6 witness: the theorem applied to a concrete one-order input. -/
theorem c6_peak_hours_witness :
    (get_vendor_peak_hours [⟨some 1, some 2, 5, "pending",
        some ⟨⟨2026, 3, 15⟩, 13, 0⟩⟩]).length ≤ 9 ∧
    (∀ e ∈ get_vendor_peak_hours [⟨some 1, some 2, 5, "pending",
        some ⟨⟨2026, 3, 15⟩, 13, 0⟩⟩], 0 < e.orders) :=
  ⟨(c6_peak_hours _).1, (c6_peak_hours
      [⟨some 1, some 2, 5, "pending", some ⟨⟨2026, 3, 15⟩, 13, 0⟩⟩]).2.1⟩

/-! ### Ranking (claim C5) -/

theorem item_stats_eq (l : List OrderItemRec) :
    item_stats l = groupFold (fun p : MenuRef × OrderItemRec => p.1.id)
      (fun p => ⟨p.1.name, 0, 0, 0⟩)
      (fun p s => ⟨s.name, s.orders + 1, s.total_quantity + p.2.quantity,
        s.total_revenue + p.2.total_price⟩)
      (l.filterMap (fun it => it.menu_items.map (fun m => (m, it)))) := by
  unfold item_stats groupFold
  generalize ([] : List (Int × ItemStats)) = st
  induction l generalizing st with
  | nil => rfl
  | cons it l ih =>
    rw [List.foldl_cons, List.filterMap_cons]
    cases hm : it.menu_items with
    | none =>
      simp only [hm]
      exact ih st
    | some m =>
      simp only [hm, Option.map_some']
      rw [List.foldl_cons]
      exact ih _

theorem filterMap_ids (l : List OrderItemRec) :
    (l.filterMap (fun it => it.menu_items.map (fun m => (m, it)))).map
        (fun p => p.1.id) =
      l.filterMap (fun it => it.menu_items.map (fun m => m.id)) := by
  induction l with
  | nil => rfl
  | cons it l ih => cases hm : it.menu_items <;> simp [List.filterMap_cons, hm, ih]

/-- Claim C5: the per-item revenue ranking has length
`min(limit, distinct menu-item count)`, is sorted descending by summed
revenue, and is stable: for any revenue value, the entries carrying it
appear in the sorted list exactly in their discovery order. -/
theorem c5_ranking (order_items : List OrderItemRec) (limit : Nat) :
    (get_vendor_top_selling_items order_items limit).length =
      min limit ((order_items.filterMap
        (fun it => it.menu_items.map (fun m => m.id))).toFinset.card) ∧
    (get_vendor_top_selling_items order_items limit).Pairwise
      (fun x y => y.total_revenue ≤ x.total_revenue) ∧
    (∀ v : ℚ,
      (pySortDesc (fun s => s.total_revenue)
          ((item_stats order_items).map Prod.snd)).filter
          (fun s => s.total_revenue = v) =
        ((item_stats order_items).map Prod.snd).filter
          (fun s => s.total_revenue = v)) := by
  refine ⟨?_, ?_, fun v => pySortDesc_filter_stable _ _ v⟩
  · unfold get_vendor_top_selling_items
    rw [List.length_take, pySortDesc_length, List.length_map, item_stats_eq,
      length_groupFold, filterMap_ids]
  · exact (pySortDesc_sorted _ _).sublist (List.take_sublist _ _)

/-- Claim C5 witness: two menu items with equal revenue 50 — the ranking
length equals `min(limit, 2)`. -/
theorem c5_ranking_witness :
    (get_vendor_top_selling_items
        [⟨some ⟨1, "A"⟩, 1, 50⟩, ⟨some ⟨2, "B"⟩, 1, 50⟩] 5).length =
      min 5 ((([⟨some ⟨1, "A"⟩, 1, 50⟩, ⟨some ⟨2, "B"⟩, 1, 50⟩] :
          List OrderItemRec).filterMap
        (fun it => it.menu_items.map (fun m => m.id))).toFinset.card) ∧
    (([⟨some ⟨1, "A"⟩, 1, 50⟩, ⟨some ⟨2, "B"⟩, 1, 50⟩] :
        List OrderItemRec).filterMap
      (fun it => it.menu_items.map (fun m => m.id))).toFinset.card = 2 :=
  ⟨(c5_ranking [⟨some ⟨1, "A"⟩, 1, 50⟩, ⟨some ⟨2, "B"⟩, 1, 50⟩] 5).1, by decide⟩

/-! ### Insight synthesis (claim C8) -/

theorem peak_nonempty_iff (orders : List OrderRec) :
    get_vendor_peak_hours orders ≠ [] ↔ ∃ p ∈ hour_stats orders, 0 < p.2.orders := by
  have h1 : get_vendor_peak_hours orders = [] ↔ peak_hours_list orders = [] := by
    unfold get_vendor_peak_hours
    rw [List.take_eq_nil_iff]
    constructor
    · rintro (h | h)
      · exact absurd h (by norm_num)
      · have hl := pySortDesc_length (fun e => e.orders) (peak_hours_list orders)
        rw [h] at hl
        exact List.length_eq_zero.mp hl.symm
    · intro h
      right
      rw [h]
      rfl
  rw [ne_eq, h1]
  unfold peak_hours_list
  constructor
  · intro h
    have hf : (hour_stats orders).filter (fun p => p.2.orders > 0) ≠ [] := by
      intro hc
      exact h (by rw [hc]; rfl)
    rcases List.exists_mem_of_ne_nil _ hf with ⟨p, hp⟩
    refine ⟨p, List.mem_of_mem_filter hp, ?_⟩
    simpa using List.of_mem_filter hp
  · rintro ⟨p, hp, hpo⟩ hcon
    have hmem : p ∈ (hour_stats orders).filter (fun p => p.2.orders > 0) :=
      List.mem_filter.mpr ⟨hp, by simpa using hpo⟩
    rw [List.map_eq_nil_iff] at hcon
    rw [hcon] at hmem
    exact List.not_mem_nil p hmem

/-- Claim C8: the insight synthesizer emits at most 4 entries; its output is
exactly the growth entry (positive above 10, warning citing the absolute
value below −5), then the peak-hour entry, then the bestseller entry, then
the menu-optimization entry (active/total below 0.8), each present exactly
when its rule qualifies — the cap never suppresses a qualifying rule; the
peak rule fires exactly when some hour bucket has a nonzero order count. -/
theorem c8_insights (now : DateTime) (orders : List OrderRec)
    (order_items : List OrderItemRec) (menu_items : List MenuItemRec)
    (stock_items : List StockRec) :
    (get_vendor_business_insights now orders order_items menu_items stock_items).length ≤ 4 ∧
    get_vendor_business_insights now orders order_items menu_items stock_items =
      (if 10 < (get_vendor_analytics_data now orders menu_items stock_items).revenue_growth then
        [Insight.growthPos
          (get_vendor_analytics_data now orders menu_items stock_items).revenue_growth]
      else if (get_vendor_analytics_data now orders menu_items stock_items).revenue_growth < -5 then
        [Insight.growthWarn
          |(get_vendor_analytics_data now orders menu_items stock_items).revenue_growth|]
      else []) ++
      (match get_vendor_peak_hours orders with
        | [] => []
        | b :: _ => [Insight.peakHour b.display_hour b.orders]) ++
      (match get_vendor_top_selling_items order_items 5 with
        | [] => []
        | b :: _ => [Insight.bestseller b.name b.total_revenue]) ++
      (if 0 < (get_vendor_analytics_data now orders menu_items stock_items).menu_items_count ∧
          ((get_vendor_analytics_data now orders menu_items stock_items).active_menu_items : ℚ) /
            ((get_vendor_analytics_data now orders menu_items stock_items).menu_items_count : ℚ)
            < 0.8 then
        [Insight.menuOpt]
      else []) ∧
    (get_vendor_peak_hours orders ≠ [] ↔ ∃ p ∈ hour_stats orders, 0 < p.2.orders) := by
  have hdef : get_vendor_business_insights now orders order_items menu_items stock_items =
      ((if 10 < (get_vendor_analytics_data now orders menu_items stock_items).revenue_growth then
        [Insight.growthPos
          (get_vendor_analytics_data now orders menu_items stock_items).revenue_growth]
      else if (get_vendor_analytics_data now orders menu_items stock_items).revenue_growth < -5 then
        [Insight.growthWarn
          |(get_vendor_analytics_data now orders menu_items stock_items).revenue_growth|]
      else []) ++
      (match get_vendor_peak_hours orders with
        | [] => []
        | b :: _ => [Insight.peakHour b.display_hour b.orders]) ++
      (match get_vendor_top_selling_items order_items 5 with
        | [] => []
        | b :: _ => [Insight.bestseller b.name b.total_revenue]) ++
      (if 0 < (get_vendor_analytics_data now orders menu_items stock_items).menu_items_count ∧
          ((get_vendor_analytics_data now orders menu_items stock_items).active_menu_items : ℚ) /
            ((get_vendor_analytics_data now orders menu_items stock_items).menu_items_count : ℚ)
            < 0.8 then
        [Insight.menuOpt]
      else [])).take 4 := rfl
  have h2 : (match get_vendor_peak_hours orders with
      | [] => ([] : List Insight)
      | b :: _ => [Insight.peakHour b.display_hour b.orders]).length ≤ 1 := by
    rcases get_vendor_peak_hours orders with _ | ⟨b, rest⟩ <;> simp
  have h3 : (match get_vendor_top_selling_items order_items 5 with
      | [] => ([] : List Insight)
      | b :: _ => [Insight.bestseller b.name b.total_revenue]).length ≤ 1 := by
    rcases get_vendor_top_selling_items order_items 5 with _ | ⟨b, rest⟩ <;> simp
  have h1 : (if 10 < (get_vendor_analytics_data now orders menu_items
        stock_items).revenue_growth then
      [Insight.growthPos
        (get_vendor_analytics_data now orders menu_items stock_items).revenue_growth]
    else if (get_vendor_analytics_data now orders menu_items
        stock_items).revenue_growth < -5 then
      [Insight.growthWarn
        |(get_vendor_analytics_data now orders menu_items stock_items).revenue_growth|]
    else []).length ≤ 1 := by
    split_ifs <;> simp
  have h4 : (if 0 < (get_vendor_analytics_data now orders menu_items
        stock_items).menu_items_count ∧
      ((get_vendor_analytics_data now orders menu_items stock_items).active_menu_items : ℚ) /
        ((get_vendor_analytics_data now orders menu_items stock_items).menu_items_count : ℚ)
        < 0.8 then
      ([Insight.menuOpt] : List Insight)
    else []).length ≤ 1 := by
    split_ifs <;> simp
  have hlen : ∀ (a b c d : List Insight), a.length ≤ 1 → b.length ≤ 1 →
      c.length ≤ 1 → d.length ≤ 1 → (a ++ b ++ c ++ d).length ≤ 4 := by
    intro a b c d ha hb hc hd
    simp only [List.length_append]
    omega
  refine ⟨?_, ?_, peak_nonempty_iff orders⟩
  · rw [hdef]
    exact le_trans (List.length_take_le 4 _) (le_refl 4)
  · rw [hdef]
    exact List.take_of_length_le (by
      refine le_trans (le_of_eq rfl) (hlen _ _ _ _ h1 h2 h3 h4))

/-! ### Falsy ids (claim C10) -/

theorem vendor_sales_keys_truthy (orders : List OrderRec) :
    ∀ k ∈ alKeys (vendor_sales orders), truthyId k = true := by
  unfold vendor_sales
  suffices h : ∀ st : List (Option Int × ℚ), (∀ k ∈ alKeys st, truthyId k = true) →
      ∀ k ∈ alKeys (orders.foldl (fun d o =>
        if truthyId o.vendor_id then upsert o.vendor_id 0 (fun s => s + o.total_amount) d
        else d) st), truthyId k = true by
    exact h [] (by simp [alKeys])
  induction orders with
  | nil => intro st hst; exact hst
  | cons o l ih =>
    intro st hst
    rw [List.foldl_cons]
    by_cases ht : truthyId o.vendor_id = true
    · rw [if_pos ht]
      apply ih
      intro k hk
      rcases (mem_alKeys_upsert _ _).mp hk with rfl | hk2
      · exact ht
      · exact hst k hk2
    · rw [if_neg ht]
      exact ih st hst

theorem unique_customers_cons_falsy (o : OrderRec) (orders : List OrderRec)
    (h : ¬ truthyId o.buyer_id = true) :
    unique_customers (o :: orders) = unique_customers orders := by
  unfold unique_customers
  rw [List.filter_cons, if_neg (by simpa using h)]

/-- Claim C10: orders with a missing/null/zero vendor id still count in
`total_sales`/`total_orders` but are excluded from the per-vendor grouping
(so the ranked revenues can total strictly less than `total_sales`, as the
concrete one-order example shows); likewise orders without a buyer id are
excluded from the unique-customer counts. -/
theorem c10_falsy_ids (now : DateTime) (orders : List OrderRec) :
    (get_sales_analytics now orders).total_orders = orders.length ∧
    (get_sales_analytics now orders).total_sales =
      (orders.map (fun o => o.total_amount)).sum ∧
    (∀ k ∈ alKeys (vendor_sales orders), truthyId k = true) ∧
    (∀ o ∈ orders, ¬ truthyId o.vendor_id = true →
      o.vendor_id ∉ alKeys (vendor_sales orders)) ∧
    ((get_sales_analytics now [⟨some 0, some 2, 10, "pending", none⟩]).total_sales =
        10 ∧
      (get_sales_analytics now [⟨some 0, some 2, 10, "pending", none⟩]).total_orders =
        1 ∧
      (get_sales_analytics now [⟨some 0, some 2, 10, "pending", none⟩]).top_vendors =
        []) ∧
    (∀ (o : OrderRec) (orders2 : List OrderRec), ¬ truthyId o.buyer_id = true →
      unique_customers (o :: orders2) = unique_customers orders2) := by
  refine ⟨rfl, rfl, vendor_sales_keys_truthy orders, ?_, ⟨?_, rfl, rfl⟩,
    fun o l h => unique_customers_cons_falsy o l h⟩
  · intro o _ hfalsy hmem
    exact hfalsy (vendor_sales_keys_truthy orders _ hmem)
  · show (([⟨some 0, some 2, 10, "pending", none⟩] :
      List OrderRec).map (fun o => o.total_amount)).sum = 10
    simp

/-- Claim C10 witness: the theorem applied to a one-order list whose
vendor id is 0 — the order is counted in the totals. -/
theorem c10_falsy_ids_witness :
    (get_sales_analytics ⟨⟨2026, 3, 15⟩, 12, 0⟩
        [⟨some 0, some 2, 10, "pending", none⟩]).total_orders =
      ([⟨some 0, some 2, 10, "pending", none⟩] : List OrderRec).length ∧
    ¬ truthyId (some 0) = true :=
  ⟨(c10_falsy_ids ⟨⟨2026, 3, 15⟩, 12, 0⟩
      [⟨some 0, some 2, 10, "pending", none⟩]).1, by decide⟩

/-! ### Guarded defaults and fetch-failure defaults (claim C9) -/

theorem vals_setKey_fold_fn {ι κ β : Type*} [DecidableEq κ] (P : β → Prop)
    (key : ι → κ) (val : ι → β) :
    ∀ (l : List ι) (st : List (κ × β)), (∀ q ∈ st, P q.2) → (∀ i ∈ l, P (val i)) →
      ∀ q ∈ l.foldl (fun d i => setKey (key i) (val i) d) st, P q.2 := by
  intro l
  induction l with
  | nil => intro st hst _ q hq; exact hst q hq
  | cons i l ih =>
    intro st hst hl q hq
    rw [List.foldl_cons] at hq
    refine ih _ ?_ (fun j hj => hl j (List.mem_cons_of_mem _ hj)) q hq
    intro r hr
    rcases setKey_val_mem hr with h | h
    · rw [h]; exact hl i (List.mem_cons_self _ _)
    · exact hst r h

theorem financial_month_seed_vals (now : DateTime) :
    ∀ q ∈ financial_month_seed now, q.2 = (0 : ℚ) :=
  vals_setKey_fold_fn (fun v : ℚ => v = 0)
    (fun i => monthKeyOf (subDays (dtReplaceDay1 now).date (i * 30)))
    (fun _ => (0 : ℚ))
    (List.range 12) [] (by simp [alKeys]) (fun i _ => rfl)

set_option maxRecDepth 8000 in
theorem financial_growth_empty (now : DateTime) :
    (get_financial_summary now []).growth_rate = 0 := by
  have he : financial_monthly_revenue now [] = financial_month_seed now := by
    unfold financial_monthly_revenue
    rw [List.foldl_nil]
  have hvals : ∀ q ∈ financial_monthly_revenue now [], q.2 = (0 : ℚ) := by
    intro q hq
    rw [he] at hq
    exact financial_month_seed_vals now q hq
  have hg : (get_financial_summary now []).growth_rate =
      match (financial_monthly_revenue now []).map (fun p => p.2) with
      | current :: previous :: _ =>
          if previous > 0 then (current - previous) / previous * 100 else 0
      | _ => 0 := rfl
  rw [hg]
  rcases hm : (financial_monthly_revenue now []).map (fun p => p.2)
    with _ | ⟨c, _ | ⟨p, rest⟩⟩
  · rw [hm]
  · rw [hm]
  · have hp : p = 0 := by
      have hmem : p ∈ (financial_monthly_revenue now []).map (fun p => p.2) := by
        rw [hm]; simp
      rcases List.mem_map.mp hmem with ⟨q, hq, hq2⟩
      rw [← hq2]
      exact hvals q hq
    rw [hm]
    show (if p > 0 then (c - p) / p * 100 else 0) = 0
    rw [if_neg (by rw [hp]; exact lt_irrefl 0)]

/-! ### Monthly transaction summary (claim C7) -/

theorem apply_tx_foldl (l : List TransRec) :
    ∀ r : MonthlySummaryRow,
      (l.foldl (fun b t => apply_tx t b) r).month = r.month ∧
      (l.foldl (fun b t => apply_tx t b) r).total_in =
        r.total_in + ((l.filter (fun t => t.transaction_type = "in")).map
          (fun t => t.quantity)).sum ∧
      (l.foldl (fun b t => apply_tx t b) r).total_out =
        r.total_out + ((l.filter (fun t => t.transaction_type = "out")).map
          (fun t => t.quantity)).sum ∧
      (l.foldl (fun b t => apply_tx t b) r).total_adjustments =
        r.total_adjustments + ((l.filter (fun t => t.transaction_type = "adjustment")).map
          (fun t => |t.quantity|)).sum ∧
      (l.foldl (fun b t => apply_tx t b) r).net_change =
        r.net_change + ((l.filter (fun t => t.transaction_type = "in")).map
          (fun t => t.quantity)).sum -
          ((l.filter (fun t => t.transaction_type = "out")).map
          (fun t => t.quantity)).sum := by
  induction l with
  | nil => intro r; refine ⟨rfl, by simp, by simp, by simp, by simp⟩
  | cons t l ih =>
    intro r
    rw [List.foldl_cons, List.filter_cons, List.filter_cons, List.filter_cons]
    by_cases hin : t.transaction_type = "in"
    · have happ : apply_tx t r = { r with total_in := r.total_in + t.quantity,
                                           net_change := r.net_change + t.quantity } := by
        unfold apply_tx
        rw [if_pos hin]
      obtain ⟨ihm, ihin, ihout, ihadj, ihnet⟩ :=
        ih { r with total_in := r.total_in + t.quantity,
                    net_change := r.net_change + t.quantity }
      rw [happ, if_pos (by simpa using hin), if_neg (by simp [hin]),
        if_neg (by simp [hin])]
      refine ⟨by rw [ihm], ?_, by rw [ihout], by rw [ihadj], ?_⟩
      · rw [ihin, List.map_cons, List.sum_cons]
        dsimp only
        omega
      · rw [ihnet, List.map_cons, List.sum_cons]
        dsimp only
        omega
    · by_cases hout : t.transaction_type = "out"
      · have happ : apply_tx t r = { r with total_out := r.total_out + t.quantity,
                                             net_change := r.net_change - t.quantity } := by
          unfold apply_tx
          rw [if_neg hin, if_pos hout]
        obtain ⟨ihm, ihin, ihout, ihadj, ihnet⟩ :=
          ih { r with total_out := r.total_out + t.quantity,
                      net_change := r.net_change - t.quantity }
        rw [happ, if_neg (by simpa using hin), if_pos (by simpa using hout),
          if_neg (by simp [hout])]
        refine ⟨by rw [ihm], by rw [ihin], ?_, by rw [ihadj], ?_⟩
        · rw [ihout, List.map_cons, List.sum_cons]
          dsimp only
          omega
        · rw [ihnet, List.map_cons, List.sum_cons]
          dsimp only
          omega
      · by_cases hadj : t.transaction_type = "adjustment"
        · have happ : apply_tx t r =
              { r with total_adjustments := r.total_adjustments + |t.quantity| } := by
            unfold apply_tx
            rw [if_neg hin, if_neg hout, if_pos hadj]
          obtain ⟨ihm, ihin, ihout, ihadj2, ihnet⟩ :=
            ih { r with total_adjustments := r.total_adjustments + |t.quantity| }
          rw [happ, if_neg (by simpa using hin), if_neg (by simpa using hout),
            if_pos (by simpa using hadj)]
          refine ⟨by rw [ihm], by rw [ihin], by rw [ihout], ?_, by rw [ihnet]⟩
          rw [ihadj2, List.map_cons, List.sum_cons]
          dsimp only
          omega
        · have happ : apply_tx t r = r := by
            unfold apply_tx
            rw [if_neg hin, if_neg hout, if_neg hadj]
          obtain ⟨ihm, ihin, ihout, ihadj2, ihnet⟩ := ih r
          rw [happ, if_neg (by simpa using hin), if_neg (by simpa using hout),
            if_neg (by simpa using hadj)]
          exact ⟨ihm, ihin, ihout, ihadj2, ihnet⟩

/-- Claim C7: each emitted month of the monthly transaction summary sums the
in-quantities, out-quantities and absolute adjustment quantities of the
windowed transactions of that month, with `net_change = total_in −
total_out`; the output is sorted most-recent-first by parsed month, has at
most 12 rows, and emits no month without at least one transaction. -/
theorem c7_monthly_summary (now : DateTime) (txs : List TransRec) :
    (get_monthly_transaction_summary now txs).length ≤ 12 ∧
    (get_monthly_transaction_summary now txs).Pairwise
      (fun x y => toLex y.month ≤ toLex x.month) ∧
    ∀ r ∈ get_monthly_transaction_summary now txs,
      ((txs.filter (fun t => dtLe (dtSubDays now 365) t.created_at &&
          dtLe t.created_at now)).filter
        (fun t => monthKeyOf t.created_at.date = r.month)) ≠ [] ∧
      r.total_in = (((((txs.filter (fun t => dtLe (dtSubDays now 365) t.created_at &&
          dtLe t.created_at now)).filter
        (fun t => monthKeyOf t.created_at.date = r.month)).filter
        (fun t => t.transaction_type = "in")).map (fun t => t.quantity)).sum) ∧
      r.total_out = (((((txs.filter (fun t => dtLe (dtSubDays now 365) t.created_at &&
          dtLe t.created_at now)).filter
        (fun t => monthKeyOf t.created_at.date = r.month)).filter
        (fun t => t.transaction_type = "out")).map (fun t => t.quantity)).sum) ∧
      r.total_adjustments = (((((txs.filter
          (fun t => dtLe (dtSubDays now 365) t.created_at &&
            dtLe t.created_at now)).filter
        (fun t => monthKeyOf t.created_at.date = r.month)).filter
        (fun t => t.transaction_type = "adjustment")).map (fun t => |t.quantity|)).sum) ∧
      r.net_change = r.total_in - r.total_out := by
  have hdef : get_monthly_transaction_summary now txs =
      (pySortDesc (fun r => toLex r.month)
        ((monthly_groups (txs.filter (fun t => dtLe (dtSubDays now 365) t.created_at &&
          dtLe t.created_at now))).map Prod.snd)).take 12 := rfl
  set keep := txs.filter (fun t => dtLe (dtSubDays now 365) t.created_at &&
    dtLe t.created_at now) with hkeep
  refine ⟨by rw [hdef]; exact List.length_take_le 12 _,
    by rw [hdef]; exact (pySortDesc_sorted _ _).sublist (List.take_sublist _ _), ?_⟩
  intro r hr
  rw [hdef] at hr
  have hr2 : r ∈ (monthly_groups keep).map Prod.snd :=
    (pySortDesc_mem _ _ r).mp (List.mem_of_mem_take hr)
  obtain ⟨⟨k, r'⟩, hkr, hsnd⟩ := List.mem_map.mp hr2
  dsimp only at hsnd
  subst hsnd
  have hnodup : (alKeys (monthly_groups keep)).Nodup :=
    nodup_alKeys_groupFold _ _ _ keep
  have hlook : alGet? k (monthly_groups keep) = some r' :=
    (mem_iff_alGet?_of_nodup hnodup).mp hkr
  rcases hfil : keep.filter (fun t => monthKeyOf t.created_at.date = k)
    with _ | ⟨t0, rest⟩
  · exfalso
    have hnone := alGet?_foldl_upsert_none_nil
      (fun t => monthKeyOf t.created_at.date)
      (fun t => (⟨monthKeyOf t.created_at.date, 0, 0, 0, 0⟩ : MonthlySummaryRow))
      apply_tx k keep [] rfl hfil
    rw [show (keep.foldl (fun d t => upsert (monthKeyOf t.created_at.date)
        (⟨monthKeyOf t.created_at.date, 0, 0, 0, 0⟩ : MonthlySummaryRow)
        (apply_tx t) d) []) = monthly_groups keep from rfl] at hnone
    rw [hnone] at hlook
    exact Option.noConfusion hlook
  · have hcons := alGet?_foldl_upsert_none_cons
      (fun t => monthKeyOf t.created_at.date)
      (fun t => (⟨monthKeyOf t.created_at.date, 0, 0, 0, 0⟩ : MonthlySummaryRow))
      apply_tx k keep [] t0 rest rfl hfil
    rw [show (keep.foldl (fun d t => upsert (monthKeyOf t.created_at.date)
        (⟨monthKeyOf t.created_at.date, 0, 0, 0, 0⟩ : MonthlySummaryRow)
        (apply_tx t) d) []) = monthly_groups keep from rfl] at hcons
    rw [hlook] at hcons
    have hr' : r' = (t0 :: rest).foldl (fun b t => apply_tx t b)
        ⟨monthKeyOf t0.created_at.date, 0, 0, 0, 0⟩ :=
      Option.some.inj hcons
    have hk0 : monthKeyOf t0.created_at.date = k := by
      have ht0 : t0 ∈ keep.filter (fun t => monthKeyOf t.created_at.date = k) := by
        rw [hfil]
        exact List.mem_cons_self _ _
      simpa using List.of_mem_filter ht0
    obtain ⟨hm, hin, hout, hadj, hnet⟩ :=
      apply_tx_foldl (t0 :: rest) ⟨monthKeyOf t0.created_at.date, 0, 0, 0, 0⟩
    rw [← hr'] at hm hin hout hadj hnet
    have hmk : r'.month = k := by rw [hm]; exact hk0
    have hfil2 : keep.filter (fun t => monthKeyOf t.created_at.date = r'.month) =
        t0 :: rest := by
      rw [hmk]
      exact hfil
    rw [hfil2]
    refine ⟨List.cons_ne_nil _ _, by simpa using hin, by simpa using hout,
      by simpa using hadj, ?_⟩
    simp only at hin hout hnet
    omega

/-- Claim C7 witness: a single in-transaction of quantity 5 in March 2026
yields the row for (2026, 3) with `total_in = 5`, and the claimed sum
identity holds for it. -/
theorem c7_monthly_summary_witness :
    (⟨(2026, 3), 5, 0, 0, 5⟩ : MonthlySummaryRow) ∈
      get_monthly_transaction_summary ⟨⟨2026, 3, 15⟩, 12, 0⟩
        [⟨5, "in", ⟨⟨2026, 3, 10⟩, 12, 0⟩⟩] ∧
    (⟨(2026, 3), 5, 0, 0, 5⟩ : MonthlySummaryRow).net_change =
      (⟨(2026, 3), 5, 0, 0, 5⟩ : MonthlySummaryRow).total_in -
      (⟨(2026, 3), 5, 0, 0, 5⟩ : MonthlySummaryRow).total_out := by
  have h365 := (subDays_spec (d := ⟨2026, 3, 15⟩) (by decide) (by decide)
    365 (le_refl 365)).2
  have hT : toDayNumber (⟨2026, 3, 15⟩ : Date) = 739689 := by decide
  have hT10 : toDayNumber (⟨2026, 3, 10⟩ : Date) = 739684 := by decide
  have hcond : (dtLe (dtSubDays ⟨⟨2026, 3, 15⟩, 12, 0⟩ 365)
      ⟨⟨2026, 3, 10⟩, 12, 0⟩ && dtLe ⟨⟨2026, 3, 10⟩, 12, 0⟩
        ⟨⟨2026, 3, 15⟩, 12, 0⟩) = true := by
    have h1 : dtLe (dtSubDays ⟨⟨2026, 3, 15⟩, 12, 0⟩ 365)
        ⟨⟨2026, 3, 10⟩, 12, 0⟩ = true := by
      have hle : dtMinutes (dtSubDays ⟨⟨2026, 3, 15⟩, 12, 0⟩ 365) ≤
          dtMinutes ⟨⟨2026, 3, 10⟩, 12, 0⟩ := by
        unfold dtMinutes dtSubDays
        dsimp only
        omega
      exact decide_eq_true hle
    have h2 : dtLe (⟨⟨2026, 3, 10⟩, 12, 0⟩ : DateTime)
        ⟨⟨2026, 3, 15⟩, 12, 0⟩ = true := by decide
    rw [h1, h2]
    rfl
  have hfil : ([⟨5, "in", ⟨⟨2026, 3, 10⟩, 12, 0⟩⟩] : List TransRec).filter
      (fun t => dtLe (dtSubDays ⟨⟨2026, 3, 15⟩, 12, 0⟩ 365) t.created_at &&
        dtLe t.created_at ⟨⟨2026, 3, 15⟩, 12, 0⟩) =
      [⟨5, "in", ⟨⟨2026, 3, 10⟩, 12, 0⟩⟩] := by
    rw [List.filter_cons, if_pos hcond]
    rfl
  have hsum : get_monthly_transaction_summary ⟨⟨2026, 3, 15⟩, 12, 0⟩
      [⟨5, "in", ⟨⟨2026, 3, 10⟩, 12, 0⟩⟩] =
      (pySortDesc (fun r => toLex r.month)
        ((monthly_groups [⟨5, "in", ⟨⟨2026, 3, 10⟩, 12, 0⟩⟩]).map Prod.snd)).take 12 := by
    show (pySortDesc (fun r => toLex r.month)
        ((monthly_groups (([⟨5, "in", ⟨⟨2026, 3, 10⟩, 12, 0⟩⟩] : List TransRec).filter
          (fun t => dtLe (dtSubDays ⟨⟨2026, 3, 15⟩, 12, 0⟩ 365) t.created_at &&
            dtLe t.created_at ⟨⟨2026, 3, 15⟩, 12, 0⟩))).map Prod.snd)).take 12 =
      (pySortDesc (fun r => toLex r.month)
        ((monthly_groups [⟨5, "in", ⟨⟨2026, 3, 10⟩, 12, 0⟩⟩]).map Prod.snd)).take 12
    rw [hfil]
  have hmem : (⟨(2026, 3), 5, 0, 0, 5⟩ : MonthlySummaryRow) ∈
      get_monthly_transaction_summary ⟨⟨2026, 3, 15⟩, 12, 0⟩
        [⟨5, "in", ⟨⟨2026, 3, 10⟩, 12, 0⟩⟩] := by
    rw [hsum]
    decide
  exact ⟨hmem,
    ((c7_monthly_summary ⟨⟨2026, 3, 15⟩, 12, 0⟩
        [⟨5, "in", ⟨⟨2026, 3, 10⟩, 12, 0⟩⟩]).2.2 _ hmem).2.2.2.2⟩

/-! ### Period windowing (claims C2 and C1) -/

theorem seedEq {κ β : Type*} [DecidableEq κ] (key : Nat → κ) (val : Nat → β) (n : Nat)
    (h : ((List.range n).map key).Nodup) :
    (List.range n).foldl (fun d i => setKey (key i) (val i) d) [] =
      (List.range n).map (fun i => (key i, val i)) := by
  have h2 : ((List.range n).map (fun i => (key i, val i))).foldl
      (fun d p => setKey p.1 p.2 d) [] =
      [] ++ (List.range n).map (fun i => (key i, val i)) := by
    refine foldl_setKey_eq_append _ [] ?_
    simpa [alKeys, List.map_map, Function.comp] using h
  rw [List.foldl_map] at h2
  simpa using h2

theorem nodup_alKeys_foldl_setKey {ι κ β : Type*} [DecidableEq κ]
    (key : ι → κ) (val : ι → β) :
    ∀ (l : List ι) (st : List (κ × β)), (alKeys st).Nodup →
      (alKeys (l.foldl (fun d i => setKey (key i) (val i) d) st)).Nodup := by
  intro l
  induction l with
  | nil => intro st h; exact h
  | cons i l ih =>
    intro st h
    rw [List.foldl_cons]
    exact ih _ (nodup_alKeys_setKey h _)

theorem count_key_le_one {κ β : Type*} [DecidableEq κ] {l : List (κ × β)}
    (h : (alKeys l).Nodup) (k : κ) :
    (l.filter (fun p => p.1 = k)).length ≤ 1 := by
  induction l with
  | nil => simp
  | cons p l ih =>
    rw [alKeys_cons] at h
    obtain ⟨hp, hl⟩ := List.nodup_cons.mp h
    rw [List.filter_cons]
    by_cases he : p.1 = k
    · rw [if_pos (by simpa using he)]
      have hnil : l.filter (fun p => p.1 = k) = [] := by
        rw [List.filter_eq_nil_iff]
        intro q hq
        simp only [decide_eq_true_eq]
        intro hqk
        exact hp (by rw [he, ← hqk]; exact List.mem_map_of_mem Prod.fst hq)
      rw [hnil]
      simp
    · rw [if_neg (by simpa using he)]
      exact ih hl

theorem alKeys_trend_fold {κ : Type*} [DecidableEq κ] (keyOf : DateTime → κ)
    (orders : List OrderRec) :
    ∀ buckets : List (κ × TrendBucket),
      alKeys (trend_fold keyOf buckets orders) = alKeys buckets := by
  unfold trend_fold
  induction orders with
  | nil => intro b; rfl
  | cons o l ih =>
    intro b
    rw [List.foldl_cons]
    cases ho : o.order_date with
    | none =>
      simp only [ho]
      exact ih b
    | some t =>
      simp only [ho]
      rw [ih (updateIn (keyOf t) _ b), alKeys_updateIn]

theorem toDayNumber_ge_of_year3 {d : Date} (hy : 3 ≤ d.year) :
    730 ≤ toDayNumber d := by
  have h1 := toDayNumber_ge d
  have hgf : (d.year - 1) / 100 ≤ (d.year - 1) / 4 :=
    Nat.div_le_div_left (by omega) (by omega)
  have h2 : 730 ≤ daysBeforeYear d.year := by
    unfold daysBeforeYear
    omega
  omega

theorem daily_seed_eq (now : DateTime) (hv : ValidDate now.date)
    (hT1 : 366 ≤ toDayNumber now.date) :
    daily_seed now = (List.range 7).map
      (fun i => (subDays now.date i,
        (⟨labelMD (subDays now.date i), 0, 0⟩ : TrendBucket))) := by
  unfold daily_seed
  exact seedEq (fun i => subDays now.date i)
    (fun i => (⟨labelMD (subDays now.date i), 0, 0⟩ : TrendBucket)) 7
    (dayKeys_nodup hv hT1)

theorem daily_seed_keys (now : DateTime) (hv : ValidDate now.date)
    (hT1 : 366 ≤ toDayNumber now.date) :
    alKeys (daily_seed now) = (List.range 7).map (fun i => subDays now.date i) := by
  rw [daily_seed_eq now hv hT1]
  simp [alKeys, List.map_map, Function.comp]

theorem weekly_seed_eq (now : DateTime) (hv : ValidDate now.date)
    (hT : 730 ≤ toDayNumber now.date) :
    weekly_seed now = (List.range 8).map
      (fun i => (weekKey (subDays now.date (7 * i)),
        (⟨"Week " ++ pad2 (uWeek (subDays now.date (7 * i))), 0, 0⟩ : TrendBucket))) := by
  unfold weekly_seed
  exact seedEq (fun i => weekKey (subDays now.date (7 * i)))
    (fun i => (⟨"Week " ++ pad2 (uWeek (subDays now.date (7 * i))), 0, 0⟩ : TrendBucket)) 8
    (weekKeys_nodup hv hT)

theorem weekly_seed_keys (now : DateTime) (hv : ValidDate now.date)
    (hT : 730 ≤ toDayNumber now.date) :
    alKeys (weekly_seed now) =
      (List.range 8).map (fun i => weekKey (subDays now.date (7 * i))) := by
  rw [weekly_seed_eq now hv hT]
  simp [alKeys, List.map_map, Function.comp]

theorem monthly_seed_vals (now : DateTime) :
    ∀ p ∈ monthly_seed now, p.2.revenue = 0 ∧ p.2.orders = 0 :=
  vals_setKey_fold_fn (fun b : TrendBucket => b.revenue = 0 ∧ b.orders = 0)
    (fun i => monthKeyOf (subDays (dtReplaceDay1 now).date (i * 30)))
    (fun i => ⟨labelBY (subDays (dtReplaceDay1 now).date (i * 30)), 0, 0⟩)
    (List.range 12) [] (by simp [alKeys]) (fun i _ => ⟨rfl, rfl⟩)

theorem monthly_seed_nodup (now : DateTime) :
    (alKeys (monthly_seed now)).Nodup := by
  unfold monthly_seed
  exact nodup_alKeys_foldl_setKey _ _ (List.range 12) [] List.nodup_nil

set_option maxRecDepth 4000 in
/-- Claim C2 counterexample (monthly windowing): at `now = 2026-03-15 12:00`
the monthly seed holds only 11 buckets, not 12 — the 30-day stepping lands
on December 2025 twice and never on February 2026 — and an order dated
2026-02-10 (inside the 12-month horizon) maps to no bucket. -/
theorem c2_counterexample :
    (monthly_seed ⟨⟨2026, 3, 15⟩, 12, 0⟩).length = 11 ∧
    alKeys (monthly_seed ⟨⟨2026, 3, 15⟩, 12, 0⟩) =
      [(2026, 3), (2026, 1), (2025, 12), (2025, 11), (2025, 10), (2025, 9),
       (2025, 8), (2025, 7), (2025, 6), (2025, 5), (2025, 4)] ∧
    ((monthly_seed ⟨⟨2026, 3, 15⟩, 12, 0⟩).filter
      (fun p => p.1 = monthlyKeyOf ⟨⟨2026, 2, 10⟩, 12, 0⟩)).length = 0 := by
  refine ⟨by decide, by decide, by decide⟩

/-- Claim C2 (amended): for every valid current time (year ≥ 3), the daily
windowing produces exactly 7 zero-initialized buckets keyed by the 7
consecutive days ending today, and the weekly windowing exactly 8
zero-initialized buckets; keys are duplicate-free, so every timestamp maps
to at most one bucket. The monthly windowing produces at most 12
zero-initialized buckets with duplicate-free keys, but can produce fewer
than 12 and skip a calendar month inside the horizon (the 30-day stepping
aliases months), as the counterexample shows. -/
theorem c2_windowing (now : DateTime) (hv : ValidDate now.date)
    (hy : 3 ≤ now.date.year) :
    (daily_seed now).length = 7 ∧
    alKeys (daily_seed now) = (List.range 7).map (fun i => subDays now.date i) ∧
    (∀ p ∈ daily_seed now, p.2.revenue = 0 ∧ p.2.orders = 0) ∧
    (alKeys (daily_seed now)).Nodup ∧
    (∀ i, i < 6 → toDayNumber (subDays now.date (i + 1)) + 1 =
      toDayNumber (subDays now.date i)) ∧
    (∀ t : DateTime,
      ((daily_seed now).filter (fun p => p.1 = dailyKeyOf t)).length ≤ 1) ∧
    (weekly_seed now).length = 8 ∧
    alKeys (weekly_seed now) =
      (List.range 8).map (fun i => weekKey (subDays now.date (7 * i))) ∧
    (∀ p ∈ weekly_seed now, p.2.revenue = 0 ∧ p.2.orders = 0) ∧
    (alKeys (weekly_seed now)).Nodup ∧
    (∀ t : DateTime,
      ((weekly_seed now).filter (fun p => p.1 = weeklyKeyOf t)).length ≤ 1) ∧
    (monthly_seed now).length ≤ 12 ∧
    (∀ p ∈ monthly_seed now, p.2.revenue = 0 ∧ p.2.orders = 0) ∧
    (alKeys (monthly_seed now)).Nodup ∧
    (∀ t : DateTime,
      ((monthly_seed now).filter (fun p => p.1 = monthlyKeyOf t)).length ≤ 1) := by
  have hT : 730 ≤ toDayNumber now.date := toDayNumber_ge_of_year3 hy
  have hT1 : 366 ≤ toDayNumber now.date := by omega
  have hdn := dayKeys_nodup hv hT1
  have hwn := weekKeys_nodup hv hT
  have hdk := daily_seed_keys now hv hT1
  have hwk := weekly_seed_keys now hv hT
  have hme : monthly_seed now = ((List.range 12).map
      (fun i => (monthKeyOf (subDays (dtReplaceDay1 now).date (i * 30)),
        (⟨labelBY (subDays (dtReplaceDay1 now).date (i * 30)), 0, 0⟩ :
          TrendBucket)))).foldl
      (fun d p => setKey p.1 p.2 d) [] := by
    unfold monthly_seed
    rw [List.foldl_map]
  refine ⟨by rw [daily_seed_eq now hv hT1]; simp, hdk, ?_,
    by rw [hdk]; exact hdn, ?_, ?_,
    by rw [weekly_seed_eq now hv hT]; simp, hwk, ?_,
    by rw [hwk]; exact hwn, ?_, ?_, monthly_seed_vals now, monthly_seed_nodup now, ?_⟩
  · intro p hp
    rw [daily_seed_eq now hv hT1] at hp
    obtain ⟨i, _, hpi⟩ := List.mem_map.mp hp
    rw [← hpi]
    exact ⟨rfl, rfl⟩
  · intro i hi
    have h1 := (subDays_spec hv hT1 i (by omega)).2
    have h2 := (subDays_spec hv hT1 (i + 1) (by omega)).2
    omega
  · intro t
    exact count_key_le_one (by rw [hdk]; exact hdn) _
  · intro p hp
    rw [weekly_seed_eq now hv hT] at hp
    obtain ⟨i, _, hpi⟩ := List.mem_map.mp hp
    rw [← hpi]
    exact ⟨rfl, rfl⟩
  · intro t
    exact count_key_le_one (by rw [hwk]; exact hwn) _
  · rw [hme]
    exact le_trans (length_foldl_setKey_le _ _) (by simp)
  · intro t
    exact count_key_le_one (monthly_seed_nodup now) _

/-- Claim C2 witness: the amended theorem at `now = 2026-03-15 12:00` — the
daily seed has exactly 7 buckets. -/
theorem c2_windowing_witness :
    ValidDate (⟨⟨2026, 3, 15⟩, 12, 0⟩ : DateTime).date ∧
    3 ≤ (⟨⟨2026, 3, 15⟩, 12, 0⟩ : DateTime).date.year ∧
    (daily_seed ⟨⟨2026, 3, 15⟩, 12, 0⟩).length = 7 :=
  ⟨by decide, by decide,
    (c2_windowing ⟨⟨2026, 3, 15⟩, 12, 0⟩ (by decide) (by decide)).1⟩

/-- Claim C1 counterexample: at `now = 2026-03-15 12:00` with no orders, the
first daily trend bucket returned is the one labelled "03/09" — the oldest
period — and the bucket for the most recent period ("03/15") comes last,
contradicting the claimed most-recent-first order. -/
theorem c1_counterexample :
    (get_vendor_revenue_trend ⟨⟨2026, 3, 15⟩, 12, 0⟩ [] Period.daily).head? =
      some ⟨"03/09", 0, 0⟩ ∧
    (get_vendor_revenue_trend ⟨⟨2026, 3, 15⟩, 12, 0⟩ [] Period.daily).getLast? =
      some ⟨"03/15", 0, 0⟩ := by
  refine ⟨by decide, by decide⟩

/-- Claim C1 (amended): the revenue-trend output returns its buckets
oldest-first — it is the reverse of the most-recent-first creation order,
for every period kind; in the daily case the bucket keys of the output run
through the 7 days in strictly increasing day-number order, ending at the
current day (most recent last, not first). -/
theorem c1_trend_order (now : DateTime) (orders : List OrderRec)
    (hv : ValidDate now.date) (hy : 3 ≤ now.date.year) :
    (get_vendor_revenue_trend now orders Period.daily =
      ((trend_fold dailyKeyOf (daily_seed now) orders).reverse).map Prod.snd) ∧
    (get_vendor_revenue_trend now orders Period.weekly =
      ((trend_fold weeklyKeyOf (weekly_seed now) orders).reverse).map Prod.snd) ∧
    (get_vendor_revenue_trend now orders Period.monthly =
      ((trend_fold monthlyKeyOf (monthly_seed now) orders).reverse).map Prod.snd) ∧
    alKeys ((trend_fold dailyKeyOf (daily_seed now) orders).reverse) =
      ((List.range 7).reverse).map (fun i => subDays now.date i) ∧
    (alKeys ((trend_fold dailyKeyOf (daily_seed now) orders).reverse)).Pairwise
      (fun a b => toDayNumber a < toDayNumber b) ∧
    (alKeys ((trend_fold dailyKeyOf (daily_seed now) orders).reverse)).getLast? =
      some now.date := by
  have hT : 730 ≤ toDayNumber now.date := toDayNumber_ge_of_year3 hy
  have hT1 : 366 ≤ toDayNumber now.date := by omega
  have hdk := daily_seed_keys now hv hT1
  have hkeys : alKeys ((trend_fold dailyKeyOf (daily_seed now) orders).reverse) =
      ((List.range 7).reverse).map (fun i => subDays now.date i) := by
    show ((trend_fold dailyKeyOf (daily_seed now) orders).reverse).map Prod.fst =
      ((List.range 7).reverse).map (fun i => subDays now.date i)
    rw [List.map_reverse]
    rw [show (trend_fold dailyKeyOf (daily_seed now) orders).map Prod.fst =
      alKeys (trend_fold dailyKeyOf (daily_seed now) orders) from rfl]
    rw [alKeys_trend_fold, hdk, List.map_reverse]
  refine ⟨(List.map_reverse Prod.snd _).symm, (List.map_reverse Prod.snd _).symm,
    (List.map_reverse Prod.snd _).symm, hkeys, ?_, ?_⟩
  · rw [hkeys, List.map_reverse]
    rw [List.pairwise_reverse]
    have h0 : (List.range 7).Pairwise (· < ·) := List.pairwise_lt_range 7
    have h1 : (List.range 7).Pairwise
        (fun a b => a ∈ List.range 7 ∧ b ∈ List.range 7 ∧ a < b) :=
      List.Pairwise.and_mem.mp h0
    refine List.Pairwise.map _ ?_ h1
    intro a b hab
    obtain ⟨ha, hb, hlt⟩ := hab
    rw [List.mem_range] at ha hb
    have h2 := (subDays_spec hv hT1 a (by omega)).2
    have h3 := (subDays_spec hv hT1 b (by omega)).2
    omega
  · rw [hkeys, List.getLast?_map, List.getLast?_reverse]
    rw [show (List.range 7).head? = some 0 from rfl]
    rfl

/-- Claim C1 witness: the amended theorem at `now = 2026-03-15 12:00` with
no orders — the last returned bucket is the one for the current day. -/
theorem c1_trend_order_witness :
    ValidDate (⟨⟨2026, 3, 15⟩, 12, 0⟩ : DateTime).date ∧
    3 ≤ (⟨⟨2026, 3, 15⟩, 12, 0⟩ : DateTime).date.year ∧
    (alKeys ((trend_fold dailyKeyOf (daily_seed ⟨⟨2026, 3, 15⟩, 12, 0⟩)
        []).reverse)).getLast? = some ⟨2026, 3, 15⟩ :=
  ⟨by decide, by decide,
    (c1_trend_order ⟨⟨2026, 3, 15⟩, 12, 0⟩ [] (by decide) (by decide)).2.2.2.2.2⟩

/-- Claim C9: every embedded aggregation entry point is a total function of
its fetch outcome — a raised fetch error yields the documented empty/zero
default, a null payload degrades to the empty record list, and every
division-by-zero condition (empty orders, zero previous-month revenue, zero
active customers, zero stock items) resolves to the guarded default 0 or
100 rather than a fault. -/
theorem c9_error_handling (now : DateTime) :
    get_sales_analytics_entry now (Except.error ()) = none ∧
    get_inventory_analytics_entry (Except.error ()) = none ∧
    get_customer_analytics_entry now (Except.error ()) = none ∧
    get_financial_summary_entry now (Except.error ()) = none ∧
    get_vendor_analytics_data_entry now (Except.error ()) = none ∧
    (∀ period, get_vendor_revenue_trend_entry now (Except.error ()) period = []) ∧
    (∀ limit, get_vendor_top_selling_items_entry (Except.error ()) limit = []) ∧
    get_vendor_peak_hours_entry (Except.error ()) = [] ∧
    get_monthly_transaction_summary_entry now (Except.error ()) = [] ∧
    get_vendor_business_insights_entry now (Except.error ()) = [] ∧
    get_sales_analytics_entry now (Except.ok none) =
      some (get_sales_analytics now []) ∧
    (get_sales_analytics now []).total_sales = 0 ∧
    (get_sales_analytics now []).average_order_value = 0 ∧
    (get_inventory_analytics []).stock_efficiency = 100 ∧
    (get_customer_analytics now [] []).retention_rate = 0 ∧
    (get_customer_analytics now [] []).avg_orders_per_customer = 0 ∧
    (get_financial_summary now []).avg_transaction_value = 0 ∧
    (get_financial_summary now []).growth_rate = 0 ∧
    (get_vendor_analytics_data now [] [] []).revenue_growth = 0 ∧
    (get_vendor_analytics_data now [] [] []).average_order_value = 0 ∧
    get_vendor_business_insights now [] [] [] [] = [] :=
  ⟨rfl, rfl, rfl, rfl, rfl, fun _ => rfl, fun _ => rfl, rfl, rfl, rfl, rfl,
    rfl, rfl, rfl, rfl, rfl, rfl, financial_growth_empty now, rfl, rfl, rfl⟩

end VendorConnect
